import Mathlib

/-!
# genmock: a verification development

A shallow embedding of `src/Mocker.cpp` / `src/Mocker.h` (the mock generator's
traversal-and-emission engine) and theorems about it.

Conventions of the embedding

* A `std::string` is the list of its characters (`Str`); characters are plain
  ASCII, `std::toupper` is the "C" locale upper-casing.
* An output stream (`llvm::raw_ostream`) is the text written to it so far;
  `OS << x` appends.  The pure printers return the text they append.
* `size_t` values are natural numbers; where the source relies on unsigned
  wrap-around the arithmetic is done modulo `2 ^ 64` explicitly.
* The declaration tree of the front end is the inductive type `Decl`; the
  `RecursiveASTVisitor` base traversal is structural recursion over it.
-/

namespace Genmock

/-! ## Strings -/

/-- A `std::string`, as the list of its characters. -/
abbrev Str := List Char

/-- The value of `std::string::npos` (the largest `size_t`). -/
def npos : Nat := 2 ^ 64 - 1

/-- The function `std::toupper` in the "C" locale. -/
def toupper (c : Char) : Char := c.toUpper

/-- The call `s.find(c)`: the first position of `c` in `s`. -/
def find (s : Str) (c : Char) : Option Nat :=
  match s with
  | [] => none
  | x :: xs => if x = c then some 0 else (find xs c).map (· + 1)

/-- The call `s.find_last_of(c)`: the last position of `c` in `s`. -/
def find_last_of (s : Str) (c : Char) : Option Nat :=
  match s with
  | [] => none
  | x :: xs =>
    match find_last_of xs c with
    | some i => some (i + 1)
    | none => if x = c then some 0 else none

/-- The call `s.rfind(needle)`: the last position at which `needle` occurs in `s`. -/
def rfind (s needle : Str) : Option Nat :=
  match s with
  | [] => if needle.isEmpty then some 0 else none
  | x :: xs =>
    match rfind xs needle with
    | some i => some (i + 1)
    | none => if needle.isPrefixOf (x :: xs) then some 0 else none

/-- The `size_t` a search returns: the position, or `npos`. -/
def posOrNpos (r : Option Nat) : Nat := r.getD npos

/-- The call `s.substr(pos, count)` for `pos ≤ s.size()` (the call throws otherwise; every
call site below stays within the bound, see `extractClassName_pos_le` and
`getRelPath_pos_le`). -/
def substr (s : Str) (pos count : Nat) : Str := (s.drop pos).take count

/-- The call `s.substr(pos)`, the count left at its default `npos`: the rest of the string
from `pos` on (for `pos ≤ s.size()`, as for `substr`). -/
def substrFrom (s : Str) (pos : Nat) : Str := s.drop pos

/-- The call `s.insert(pos, t)` for `pos ≤ s.size()`. -/
def insert (s : Str) (pos : Nat) (t : Str) : Str := s.take pos ++ t ++ s.drop pos

/-! ## LLVM path helpers (library models, POSIX style) -/

/-- Model of `llvm::sys::path::filename`: the component after the last `/`
(the whole path when it has none).  This is what the library returns for a
path that names a file, i.e. does not end in a separator. -/
def filename (path : Str) : Str :=
  match find_last_of path '/' with
  | none => path
  | some i => path.drop (i + 1)

/-- Model of `llvm::sys::path::is_absolute` (POSIX): the path starts at the root. -/
def is_absolute (path : Str) : Bool :=
  match path with
  | '/' :: _ => true
  | _ => false

/-- Model of `llvm::sys::path::parent_path`: the path without its last component. -/
def parent_path (path : Str) : Str :=
  match find_last_of path '/' with
  | none => []
  | some 0 => ['/']
  | some i => path.take i

/-! ## The declaration tree of the front end -/

/-- A `clang::ParmVarDecl`, by the three renderings the generator asks for. -/
structure ParmVarDecl where
  /-- the text of `getName()` -/
  name : Str
  /-- the text of `getOriginalType().getAsString()` -/
  originalType : Str
  /-- the text of `print(OS)`: the parameter as declared, type and name -/
  printed : Str
  deriving DecidableEq, Repr

/-- What a `clang::CXXMethodDecl` adds to a `clang::FunctionDecl`. -/
structure CXXMethodInfo where
  /-- the text of `getParent()->getName()` -/
  parentName : Str
  isConst : Bool
  isVirtual : Bool
  isStatic : Bool
  /-- the value of `clang::CXXDestructorDecl::classof(method)` -/
  isDestructor : Bool
  deriving DecidableEq, Repr

/-- A `clang::FunctionDecl`; `asMethod` is `llvm::dyn_cast<clang::CXXMethodDecl>`. -/
structure FunctionDecl where
  /-- the text of `getName()` -/
  name : Str
  /-- the text of `getReturnType().getAsString()` -/
  returnType : Str
  /-- the value of `getReturnType()->isVoidType()` -/
  returnIsVoid : Bool
  params : List ParmVarDecl
  asMethod : Option CXXMethodInfo
  deriving DecidableEq, Repr

namespace FunctionDecl

def getNumParams (f : FunctionDecl) : Nat := f.params.length

def isConst (f : FunctionDecl) : Bool := f.asMethod.any (·.isConst)

def isVirtual (f : FunctionDecl) : Bool := f.asMethod.any (·.isVirtual)

def isStatic (f : FunctionDecl) : Bool := f.asMethod.any (·.isStatic)

def isDestructor (f : FunctionDecl) : Bool := f.asMethod.any (·.isDestructor)

end FunctionDecl

/-- The language of a `clang::LinkageSpecDecl`. -/
inductive LinkageSpecLanguage where
  | C
  | CXX
  deriving DecidableEq, Repr

mutual
/-- The declarations the visitor distinguishes.  `loc` is the file name of the
declaration's location (`none` when the location is invalid).  Function-like
declarations are leaves; every other kind of declaration is `Other`. -/
inductive Decl where
  | LinkageSpec (loc : Option Str) (language : LinkageSpecLanguage) (children : DeclList)
  | Namespace (loc : Option Str) (name : Str) (children : DeclList)
  | CXXRecord (loc : Option Str) (name : Str) (hasDefinition : Bool) (children : DeclList)
  | Function (loc : Option Str) (function : FunctionDecl)
  | Other (loc : Option Str)
/-- The child declarations of a declaration context, in declaration order. -/
inductive DeclList where
  | nil
  | cons (d : Decl) (ds : DeclList)
end

/-- The file name of `D->getLocation()`, when the location is valid. -/
def Decl.loc : Decl → Option Str
  | .LinkageSpec loc _ _ => loc
  | .Namespace loc _ _ => loc
  | .CXXRecord loc _ _ _ => loc
  | .Function loc _ => loc
  | .Other loc => loc

/-- Build a `DeclList` from a list. -/
def DeclList.ofList : List Decl → DeclList
  | [] => .nil
  | d :: ds => .cons d (DeclList.ofList ds)

/-- The range `cl->methods()`: the member functions declared directly in a class. -/
def DeclList.methods : DeclList → List FunctionDecl
  | .nil => []
  | .cons (.Function _ f) ds => if f.asMethod.isSome then f :: ds.methods else ds.methods
  | .cons _ ds => ds.methods

/-! ## Signature renderer (`Mocker.cpp`, anonymous namespace) -/

/-- The loop of `printParamList`: `k` iterations remain, `i` is the loop index. -/
def printParamListLoop (function : FunctionDecl) (processParam : ParmVarDecl → Str) :
    Nat → Nat → Str → Str
  | 0, _, OS => OS
  | k + 1, i, OS =>
    let OS := match function.params.get? i with
      | some p => OS ++ processParam p
      | none => OS
    let OS := if i ≠ function.getNumParams - 1 then OS ++ ", ".toList else OS
    printParamListLoop function processParam k (i + 1) OS

def printParamListWith (function : FunctionDecl) (processParam : ParmVarDecl → Str) : Str :=
  printParamListLoop function processParam function.getNumParams 0 []

def printParamList (function : FunctionDecl) : Str :=
  printParamListWith function (fun param => param.printed)

def printParamTypeList (function : FunctionDecl) : Str :=
  printParamListWith function (fun param => param.originalType)

def printParamNameList (function : FunctionDecl) : Str :=
  printParamListWith function (fun param => param.name)

def printFunctionSignature (function : FunctionDecl) : Str :=
  let OS := function.returnType ++ " ".toList
  let OS := match function.asMethod with
    | some method => OS ++ method.parentName ++ "::".toList
    | none => OS
  OS ++ function.name ++ "(".toList ++ printParamList function ++ ")".toList

def printMockFunctionCall (mockClassName : Str) (function : FunctionDecl) : Str :=
  let OS := if !function.returnIsVoid then "return ".toList else []
  OS ++ mockClassName ++ "::instance().".toList ++ function.name ++ "(".toList
    ++ printParamNameList function ++ ");".toList

def printFunctionDefinition (mockClassName : Str) (function : FunctionDecl) : Str :=
  printFunctionSignature function ++ "\n\x7b\n    ".toList
    ++ printMockFunctionCall mockClassName function ++ "\n\x7d\n\n".toList

/-! ## Mock-macro emitters -/

def oldMockFunction (function : FunctionDecl) : Str :=
  let OS := if function.asMethod.isSome && function.isConst then "MOCK_CONST_METHOD".toList
    else "MOCK_METHOD".toList
  OS ++ (Nat.repr function.getNumParams).toList ++ "(".toList ++ function.name ++ ", ".toList
    ++ function.returnType ++ "(".toList ++ printParamTypeList function ++ "));\n".toList

def newMockFunction (function : FunctionDecl) : Str :=
  let OS := "MOCK_METHOD(".toList ++ function.returnType ++ ", ".toList ++ function.name
    ++ ", (".toList ++ printParamTypeList function ++ ")".toList
  let OS := match function.asMethod with
    | some method =>
      let OS := if method.isConst then
          let OS := OS ++ ", (const".toList
          let OS := if method.isVirtual then OS ++ ", override".toList else OS
          OS ++ ")".toList
        else OS
      if method.isVirtual then OS ++ ", (override)".toList else OS
    | none => OS
  OS ++ ");\n".toList

/-! ## Naming rules -/

def withoutI (className : Str) : Str :=
  match className with
  | 'I' :: rest => rest
  | _ => className

/-- The assignment `className[0] = toupper(className[0])`: on an empty string this rewrites the
terminating null character with itself. -/
def upperFirst (className : Str) : Str :=
  match className with
  | [] => []
  | c :: cs => toupper c :: cs

def extractClassName (path : Str) : Str :=
  let slashPos := match find_last_of path '/' with
    | none => 0
    | some p => p + 1
  let dotPos := posOrNpos (find path '.')
  let className := substr path slashPos ((dotPos + 2 ^ 64 - slashPos) % 2 ^ 64)
  upperFirst className

def getRelPath (path : Str) : Str :=
  match rfind path "include/".toList with
  | none => filename path
  | some lastIncludePos => substrFrom path (lastIncludePos + 8)

/-- The loop of `getGuardToken`: `done` is `token[0..i)` (already rewritten), the
list argument is `token[i..)` (still as in `relPath`). -/
def getGuardTokenLoop : Str → Nat → Str → Nat → Str × Nat
  | [], _, done, ubarPos => (done, ubarPos)
  | c :: cs, i, done, ubarPos =>
    if c = '/' ∨ c = '.' then getGuardTokenLoop cs (i + 1) (done ++ ['_']) i
    else getGuardTokenLoop cs (i + 1) (done ++ [toupper c]) ubarPos

def getGuardToken (relPath : Str) : Str :=
  let r := getGuardTokenLoop relPath 0 [] 0
  insert r.1 r.2 "_MOCK".toList

/-! ## The visitor (`class Mocker`) -/

inductive GmockStyle where
  | Old
  | New
  deriving DecidableEq, Repr

structure Config where
  tab : Str
  singletonPath : Str
  singletonClass : Str
  gmockStyle : GmockStyle
  deriving DecidableEq, Repr

inductive Stage where
  | INCLUDES
  | NAMESPACES
  | CLASS
  | FUNCTIONS
  deriving DecidableEq, Repr

/-- A request the visitor makes to the file system. -/
inductive FsAction where
  | create_directories (dir : Str)
  | openFile (path : Str)
  deriving DecidableEq, Repr

/-- The file system the run meets: for each request, `none` when it succeeds and
the text of `EC.message()` when it fails. -/
structure FileSystem where
  create_directories : Str → Option Str
  openFile : Str → Option Str

/-- The members of `Mocker`.  `header_` and `src_` hold the text written to the
two streams; `src_ = none` is the null pointer (no source file requested).
`errs_` is the text written to `llvm::errs()` and `fs_` the requests made to the
file system, oldest first. -/
structure Mocker where
  config_ : Config
  inputFilePath_ : Str
  relativeInputPath_ : Str
  outputHeaderPath_ : Str
  outputSourcePath_ : Str
  header_ : Str
  src_ : Option Str
  stage_ : Stage
  className_ : Str
  mockClassName_ : Str
  errs_ : Str
  fs_ : List FsAction
  deriving DecidableEq, Repr

namespace Mocker

/-- The constructor `Mocker::Mocker`. -/
def new (config : Config) (inputFilePath outputHeaderPath outputSourcePath : Str) : Mocker :=
  { config_ := config
    inputFilePath_ := inputFilePath
    relativeInputPath_ := filename inputFilePath
    outputHeaderPath_ := outputHeaderPath
    outputSourcePath_ := outputSourcePath
    header_ := []
    src_ := none
    stage_ := .INCLUDES
    className_ := []
    mockClassName_ := []
    errs_ := []
    fs_ := [] }

/-- The member `printMockFunction_`, assigned once by the constructor from the
constant `config_`. -/
def printMockFunction_ (m : Mocker) : FunctionDecl → Str :=
  if m.config_.gmockStyle = .Old then oldMockFunction else newMockFunction

/-- The statement `*header_ << s`. -/
def toHeader (m : Mocker) (s : Str) : Mocker := { m with header_ := m.header_ ++ s }

/-- The statement `*src_ << s` (only executed where `src_` is not null). -/
def toSrc (m : Mocker) (s : Str) : Mocker := { m with src_ := m.src_.map (· ++ s) }

/-- The statement `llvm::errs() << s`. -/
def toErrs (m : Mocker) (s : Str) : Mocker := { m with errs_ := m.errs_ ++ s }

/-- Record a request to the file system. -/
def request (m : Mocker) (a : FsAction) : Mocker := { m with fs_ := m.fs_ ++ [a] }

/-- The test of `Mocker::TraverseDecl`: the declaration has a valid location in a
file other than the input file. -/
def ignores (m : Mocker) (loc : Option Str) : Bool :=
  match loc with
  | some file => filename file != m.relativeInputPath_
  | none => false

end Mocker

def VisitCXXMethodDecl (m : Mocker) (method : FunctionDecl) : Bool × Mocker :=
  let m := { m with stage_ := Stage.FUNCTIONS }
  if m.src_.isSome && method.isStatic then
    let m := m.toHeader m.config_.tab
    let m := m.toHeader (m.printMockFunction_ method)
    let m := m.toSrc (printFunctionDefinition m.mockClassName_ method)
    (true, m)
  else if method.isVirtual && !method.isDestructor then
    let m := m.toHeader m.config_.tab
    let m := m.toHeader (m.printMockFunction_ method)
    (true, m)
  else
    (true, m)

def WalkUpFromCXXMethodDecl (m : Mocker) (method : FunctionDecl) : Bool × Mocker :=
  VisitCXXMethodDecl m method

def VisitFunctionDecl (m : Mocker) (function : FunctionDecl) : Bool × Mocker :=
  if !m.src_.isSome then (true, m)
  else
    let m := if m.stage_ = Stage.INCLUDES ∨ m.stage_ = Stage.NAMESPACES then
        (m.toHeader "\n".toList).toSrc "\n".toList
      else m
    let m := { m with stage_ := Stage.FUNCTIONS }
    let m := m.toHeader m.config_.tab
    let m := m.toHeader (m.printMockFunction_ function)
    let m := m.toSrc (printFunctionDefinition m.mockClassName_ function)
    (true, m)

/-- The override `Mocker::TraverseLinkageSpecDecl`; `base` is the call
`RecursiveASTVisitor::TraverseLinkageSpecDecl(linkageSpec)`. -/
def TraverseLinkageSpecDecl (base : Mocker → Bool × Mocker) (m : Mocker)
    (linkageLanguage : LinkageSpecLanguage) : Bool × Mocker :=
  let m := if m.stage_ = Stage.INCLUDES ∧ m.src_.isSome then m.toSrc "\n".toList else m
  let m := { m with stage_ := Stage.NAMESPACES }
  let m := { m with mockClassName_ := extractClassName m.inputFilePath_ ++ "Mock".toList }
  let m := m.toHeader ("class ".toList ++ m.mockClassName_ ++ " : public ".toList
    ++ m.config_.singletonClass ++ "<".toList ++ m.mockClassName_ ++ ">\n\x7b\npublic:\n".toList)
  let language : Str := if m.src_.isSome then
      (if linkageLanguage = LinkageSpecLanguage.C then "C".toList else "CXX".toList)
    else []
  let m := if m.src_.isSome then
      m.toSrc ("extern \"".toList ++ language ++ "\" \x7b\n".toList)
    else m
  let result := base m
  let m := result.2
  let m := if m.src_.isSome then
      m.toSrc ("\x7d // extern \"".toList ++ language ++ "\"\n".toList)
    else m
  let m := m.toHeader ("\x7d; // class ".toList ++ m.mockClassName_ ++ "\n\n".toList)
  (result.1, m)

/-- The override `Mocker::TraverseNamespaceDecl`; `base` is the call
`RecursiveASTVisitor::TraverseNamespaceDecl(ns)`. -/
def TraverseNamespaceDecl (base : Mocker → Bool × Mocker) (m : Mocker) (name : Str) :
    Bool × Mocker :=
  let m := if m.stage_ = Stage.INCLUDES then
      let m := m.toHeader "\n".toList
      if m.src_.isSome then m.toSrc "\n".toList else m
    else m
  let m := { m with stage_ := Stage.NAMESPACES }
  let m := m.toHeader ("namespace ".toList ++ name ++ " \x7b\n".toList)
  let m := if m.src_.isSome then m.toSrc ("namespace ".toList ++ name ++ " \x7b\n".toList) else m
  let result := base m
  let m := result.2
  let m := m.toHeader ("\x7d // namespace ".toList ++ name ++ "\n".toList)
  let m := if m.src_.isSome then m.toSrc ("\x7d // namespace ".toList ++ name ++ "\n".toList) else m
  (result.1, m)

/-- The override `Mocker::TraverseCXXRecordDecl`; `methods` is `cl->methods()` and
`base` is the call `RecursiveASTVisitor::TraverseCXXRecordDecl(cl)`. -/
def TraverseCXXRecordDecl (base : Mocker → Bool × Mocker) (m : Mocker) (name : Str)
    (hasDefinition : Bool) (methods : List FunctionDecl) : Bool × Mocker :=
  if !hasDefinition then (true, m)
  else
    let noStaticMethods := if m.src_.isSome then !methods.any (·.isStatic) else true
    if m.src_.isSome && noStaticMethods then (true, m)
    else
      let m := if m.stage_ = Stage.INCLUDES ∨ m.stage_ = Stage.NAMESPACES then
          let m := m.toHeader "\n".toList
          if m.src_.isSome then m.toSrc "\n".toList else m
        else m
      let m := { m with stage_ := Stage.CLASS }
      let m := { m with className_ := name }
      let m := { m with mockClassName_ := withoutI m.className_ ++ "Mock".toList }
      let m := if m.src_.isSome then
          m.toHeader ("class ".toList ++ m.mockClassName_ ++ " : public ".toList
            ++ m.config_.singletonClass ++ "<".toList ++ m.mockClassName_
            ++ ">\n\x7b\npublic:\n".toList
            ++ m.config_.tab ++ m.mockClassName_ ++ "() : ".toList ++ m.config_.singletonClass
            ++ "<".toList ++ m.mockClassName_ ++ ">(*this) \x7b\x7d\n\n".toList)
        else
          m.toHeader ("class ".toList ++ m.mockClassName_ ++ " : public ".toList
            ++ m.className_ ++ "\n\x7b\npublic:\n".toList)
      let result := base m
      let m := result.2
      let m := m.toHeader ("\x7d; // class ".toList ++ m.mockClassName_ ++ "\n\n".toList)
      (result.1, m)

mutual
/-- The override `Mocker::TraverseDecl` followed by the dispatch of
`RecursiveASTVisitor::TraverseDecl` on the kind of the declaration. -/
def TraverseDecl (m : Mocker) (D : Decl) : Bool × Mocker :=
  if m.ignores D.loc then (true, m)
  else
    match D with
    | .LinkageSpec _ language children =>
      TraverseLinkageSpecDecl (fun m => TraverseDeclContextHelper m children) m language
    | .Namespace _ name children =>
      TraverseNamespaceDecl (fun m => TraverseDeclContextHelper m children) m name
    | .CXXRecord _ name hasDefinition children =>
      TraverseCXXRecordDecl (fun m => TraverseDeclContextHelper m children) m name
        hasDefinition children.methods
    | .Function _ function =>
      if function.asMethod.isSome then WalkUpFromCXXMethodDecl m function
      else VisitFunctionDecl m function
    | .Other _ => (true, m)
/-- The loop of `RecursiveASTVisitor::TraverseDeclContextHelper`: the children in
declaration order, stopping at the first traversal that returns `false`. -/
def TraverseDeclContextHelper (m : Mocker) : DeclList → Bool × Mocker
  | .nil => (true, m)
  | .cons d ds =>
    let result := TraverseDecl m d
    if result.1 then TraverseDeclContextHelper result.2 ds else (false, result.2)
end

/-- The first part of `Mocker::TraverseTranslationUnitDecl` (up to the opening of
the streams): check the output paths, create the directories, open the files.
The flag is `false` exactly where the source executes `return false`. -/
def openOutputStreams (fs : FileSystem) (m : Mocker) : Bool × Mocker :=
  if !is_absolute m.outputHeaderPath_ then
    (false, m.toErrs ("Output header path is not absolute: ".toList ++ m.outputHeaderPath_
      ++ "\n".toList))
  else
    let headerDir := parent_path m.outputHeaderPath_
    let m := m.request (.create_directories headerDir)
    match fs.create_directories headerDir with
    | some message =>
      (false, m.toErrs ("Can't create the directory for the output header file ".toList
        ++ m.outputHeaderPath_ ++ ": ".toList ++ message ++ "\n".toList))
    | none =>
      let m := { m.request (.openFile m.outputHeaderPath_) with header_ := [] }
      match fs.openFile m.outputHeaderPath_ with
      | some message =>
        (false, m.toErrs ("Can't open the output header file ".toList ++ m.outputHeaderPath_
          ++ ": ".toList ++ message ++ "\n".toList))
      | none =>
        if !m.outputSourcePath_.isEmpty then
          if !is_absolute m.outputSourcePath_ then
            (false, m.toErrs ("Output source path is not absolute: ".toList
              ++ m.outputSourcePath_ ++ "\n".toList))
          else
            let sourceDir := parent_path m.outputSourcePath_
            let m := m.request (.create_directories sourceDir)
            match fs.create_directories sourceDir with
            | some message =>
              (false, m.toErrs ("Can't create the directory for the output source file ".toList
                ++ sourceDir ++ ": ".toList ++ message ++ "\n".toList))
            | none =>
              let m := { m.request (.openFile m.outputSourcePath_) with src_ := some [] }
              match fs.openFile m.outputSourcePath_ with
              | some message =>
                (false, m.toErrs ("Can't open the output src file ".toList
                  ++ m.outputSourcePath_ ++ ": ".toList ++ message ++ "\n".toList))
              | none => (true, m)
        else (true, m)

/-- The override `Mocker::TraverseTranslationUnitDecl`; `base` is the call
`RecursiveASTVisitor::TraverseTranslationUnitDecl(tu)`. -/
def TraverseTranslationUnitDecl (fs : FileSystem) (base : Mocker → Bool × Mocker)
    (m : Mocker) : Bool × Mocker :=
  let opened := openOutputStreams fs m
  if !opened.1 then opened
  else
    let m := opened.2
    let relInputPath := getRelPath m.inputFilePath_
    let guardToken := getGuardToken relInputPath
    let m := m.toHeader ("#ifndef ".toList ++ guardToken ++ "\n".toList
      ++ "#define ".toList ++ guardToken ++ "\n\n".toList
      ++ "#include \"".toList ++ relInputPath ++ "\"\n".toList)
    let m := if m.src_.isSome then
        let m := m.toHeader "#include <estd/singleton.h>\n".toList
        let relOutputHeaderPath := getRelPath m.outputHeaderPath_
        m.toSrc ("#include \"".toList ++ relInputPath ++ "\"\n#include \"".toList
          ++ relOutputHeaderPath ++ "\"\n".toList)
      else m
    let m := m.toHeader "#include <gmock/gmock.h>\n".toList
    let result := base m
    let m := result.2
    let m := m.toHeader ("#endif // ".toList ++ guardToken ++ "\n".toList)
    (result.1, m)

/-- A file system on which every request succeeds. -/
def FileSystem.ok : FileSystem :=
  { create_directories := fun _ => none, openFile := fun _ => none }

/-- The call `mocker_.TraverseDecl(Context.getTranslationUnitDecl())` of
`MockingConsumer::HandleTranslationUnit` on a mocker `m`: the translation unit
has no location, so the traversal reaches `TraverseTranslationUnitDecl`. -/
def Mocker.traverseUnit (fs : FileSystem) (m : Mocker) (tu : DeclList) : Bool × Mocker :=
  TraverseTranslationUnitDecl fs (fun m => TraverseDeclContextHelper m tu) m

/-- The run of `MockingConsumer` for one input file: build the mocker, then
`HandleTranslationUnit`. -/
def HandleTranslationUnit (fs : FileSystem) (config : Config)
    (InFile outputHeaderPath outputSourcePath : Str) (tu : DeclList) : Bool × Mocker :=
  (Mocker.new config InFile outputHeaderPath outputSourcePath).traverseUnit fs tu

/-! ## Specification-side vocabulary -/

/-- The character `getGuardToken` leaves at a position that held `c`: `_` for a
separator (`/` or `.`), the upper-cased character otherwise. -/
def guardChar (c : Char) : Char := if c = '/' ∨ c = '.' then '_' else toupper c

/-- The `/`-separated segments of a path. -/
def segments (path : Str) : List Str := path.splitOn '/'

/-- The text `sep`-joined parameter renderings: `r p₀, r p₁, …`. -/
def joinParams (function : FunctionDecl) (render : ParmVarDecl → Str) : Str :=
  ", ".toList.intercalate (function.params.map render)

/-- A current-dialect macro line with the given qualifier segment:
`MOCK_METHOD(<returnType>, <name>, (<paramTypeList>)<qualifiers>);` and a newline. -/
def mockMethodLine (function : FunctionDecl) (qualifiers : Str) : Str :=
  "MOCK_METHOD(".toList ++ function.returnType ++ ", ".toList ++ function.name ++ ", (".toList
    ++ joinParams function (·.originalType) ++ ")".toList ++ qualifiers ++ ");\n".toList

/-- The qualifier segment as the specification words it: `, (const, override)` for
a const virtual method, `, (override)` for a non-const virtual method, nothing
for a non-virtual method or a free function. -/
def specQualifiers (function : FunctionDecl) : Str :=
  match function.asMethod with
  | some method =>
    if method.isVirtual then
      (if method.isConst then ", (const, override)".toList else ", (override)".toList)
    else []
  | none => []

/-- The mock class name the specification derives from a class name: the name
without its first character when that character is `I`, then `Mock`. -/
def specMockClassName (className : Str) : Str :=
  (if className.head? = some 'I' then className.drop 1 else className) ++ "Mock".toList

/-- The state the specification describes after entering a class `name` in
header-only mode: the blank separator line when the stage is still `INCLUDES` or
`NAMESPACES`, then the opening `class <M> : public <name>`, `{` and `public:`. -/
def enteredClass (m : Mocker) (name : Str) : Mocker :=
  { m with
    stage_ := Stage.CLASS
    className_ := name
    mockClassName_ := specMockClassName name
    header_ := m.header_
      ++ (if m.stage_ = Stage.INCLUDES ∨ m.stage_ = Stage.NAMESPACES then "\n".toList else [])
      ++ ("class ".toList ++ specMockClassName name ++ " : public ".toList ++ name
          ++ "\n\x7b\npublic:\n".toList) }

/-! ## Example inputs -/

/-- The method `virtual void draw() const` of a class `IWidget`. -/
def drawDecl : FunctionDecl :=
  { name := "draw".toList, returnType := "void".toList, returnIsVoid := true, params := [],
    asMethod := some { parentName := "IWidget".toList, isConst := true, isVirtual := true,
                       isStatic := false, isDestructor := false } }

/-- The method `virtual int resize(int w, int h)` of a class `IWidget`. -/
def resizeDecl : FunctionDecl :=
  { name := "resize".toList, returnType := "int".toList, returnIsVoid := false,
    params := [⟨"w".toList, "int".toList, "int w".toList⟩,
               ⟨"h".toList, "int".toList, "int h".toList⟩],
    asMethod := some { parentName := "IWidget".toList, isConst := false, isVirtual := true,
                       isStatic := false, isDestructor := false } }

/-- A static method `<returnType> <owner>::<name>()`. -/
def staticDecl (owner name returnType : Str) (returnIsVoid : Bool) : FunctionDecl :=
  { name := name, returnType := returnType, returnIsVoid := returnIsVoid, params := [],
    asMethod := some { parentName := owner, isConst := false, isVirtual := false,
                       isStatic := true, isDestructor := false } }

/-- The free function `int f()`. -/
def freeDecl : FunctionDecl :=
  { name := "f".toList, returnType := "int".toList, returnIsVoid := false, params := [],
    asMethod := none }

/-- A configuration: two spaces of indentation, the current dialect. -/
def exampleConfig : Config :=
  { tab := "  ".toList, singletonPath := "estd/singleton.h".toList,
    singletonClass := "estd::singleton".toList, gmockStyle := .New }

/-- The declarations of
`class Outer { class Nested { static int b(); }; static void c(); };`. -/
def nestedTree : DeclList :=
  .ofList [.CXXRecord none "Outer".toList true (.ofList [
    .CXXRecord none "Nested".toList true (.ofList [
      .Function none (staticDecl "Nested".toList "b".toList "int".toList false)]),
    .Function none (staticDecl "Outer".toList "c".toList "void".toList true)])]

/-- The declarations of `namespace ns { int f(); }`. -/
def namespaceTree : DeclList :=
  .ofList [.Namespace none "ns".toList (.ofList [.Function none freeDecl])]

/-- A mocker in the middle of a header-only run (no source stream). -/
def headerOnlyMocker : Mocker :=
  { Mocker.new exampleConfig "widget.h".toList "/out/widget_mock.h".toList [] with
    header_ := "#include <gmock/gmock.h>\n".toList }

/-- A mocker in the middle of a source-mode run, inside the mock class of `Widget`. -/
def sourceModeMocker : Mocker :=
  { Mocker.new exampleConfig "widget.h".toList "/out/widget_mock.h".toList
      "/out/widget_mock.cpp".toList with
    header_ := "#include <gmock/gmock.h>\n".toList
    src_ := some "#include \"widget.h\"\n".toList
    stage_ := .CLASS
    className_ := "Widget".toList
    mockClassName_ := "WidgetMock".toList }

/-! ## Further specification-side vocabulary -/

/-- The renderings `a₀, a₁, …` joined by `, `: nothing for no entry, no separator
before the first or after the last entry. -/
def joinComma : List Str → Str
  | [] => []
  | [a] => a
  | a :: b :: rest => a ++ ", ".toList ++ joinComma (b :: rest)

/-! ## Further example inputs -/

/-- The declarations of `extern "C++" { int f(); }`. -/
def cxxLinkageTree : DeclList :=
  .ofList [.LinkageSpec none .CXX (.ofList [.Function none freeDecl])]

/-! ## The configuration mapping (`Mocker::Config::Config`) -/

/-- A value of the JSON configuration, as far as the constructor distinguishes
values: integers convert to `int`, strings to `std::string`, everything else
(`other`: null, arrays, objects, …) makes the conversion throw. -/
inductive JsonValue where
  | number (n : Int)
  | string (s : Str)
  | other
  deriving DecidableEq, Repr

/-- A JSON object: its keys with their values. -/
abbrev JsonObject := List (Str × JsonValue)

/-- The conversion `const int x = cfg[key]`; `none` where the library throws or the
key is absent. -/
def JsonObject.getInt (cfg : JsonObject) (key : Str) : Option Int :=
  match cfg.lookup key with
  | some (.number n) => some n
  | _ => none

/-- The conversion `std::string x = cfg[key]`; `none` where the library throws or
the key is absent. -/
def JsonObject.getString (cfg : JsonObject) (key : Str) : Option Str :=
  match cfg.lookup key with
  | some (.string s) => some s
  | _ => none

/-- The constructor `Mocker::Config::Config`.  The member `gmockStyle` has no
initialiser and the constructor assigns it only for the styles `old` and `new`;
`indeterminate` is the value the member holds otherwise (whatever the memory of
the object contained; the constructor of `Mocker` only tests it against `Old`,
so `New` stands for every other value).  The result is `none` where the
construction throws (a key absent or of the wrong shape, a negative length). -/
def Config.ofJson (indeterminate : GmockStyle) (cfg : JsonObject) : Option Config :=
  match cfg.getInt "tab_length".toList with
  | none => none
  | some tabLength =>
    if tabLength < 0 then none
    else
      match cfg.getString "singleton_path".toList with
      | none => none
      | some singletonPath =>
        match cfg.getString "singleton_class".toList with
        | none => none
        | some singletonClass =>
          match cfg.lookup "style".toList with
          | none => none
          | some style =>
            some
              { tab := List.replicate tabLength.toNat ' '
                singletonPath := singletonPath
                singletonClass := singletonClass
                gmockStyle :=
                  if style = JsonValue.string "old".toList then GmockStyle.Old
                  else if style = JsonValue.string "new".toList then GmockStyle.New
                  else indeterminate }

/-- A configuration mapping with the given value of `style`, the other keys well
formed (`tab_length` 2). -/
def configWithStyle (style : JsonValue) : JsonObject :=
  [("tab_length".toList, .number 2),
   ("singleton_path".toList, .string "estd/singleton.h".toList),
   ("singleton_class".toList, .string "estd::singleton".toList),
   ("style".toList, style)]

/-! ## Example inputs for the stage -/

/-- The declaration `namespace ns { class IShape { virtual int resize(int w, int h); }; }`. -/
def shapeNamespace : Decl :=
  .Namespace none "ns".toList (.ofList [
    .CXXRecord none "IShape".toList true (.ofList [.Function none resizeDecl])])

/-! ## The overrides split at the call of the base traversal -/

/-- The part of `Mocker::TraverseNamespaceDecl` before the base traversal. -/
def enterNamespaceDecl (m : Mocker) (name : Str) : Mocker :=
  let m := if m.stage_ = Stage.INCLUDES then
      let m := m.toHeader "\n".toList
      if m.src_.isSome then m.toSrc "\n".toList else m
    else m
  let m := { m with stage_ := Stage.NAMESPACES }
  let m := m.toHeader ("namespace ".toList ++ name ++ " \x7b\n".toList)
  if m.src_.isSome then m.toSrc ("namespace ".toList ++ name ++ " \x7b\n".toList) else m

/-- The part of `Mocker::TraverseNamespaceDecl` after the base traversal. -/
def leaveNamespaceDecl (m : Mocker) (name : Str) : Mocker :=
  let m := m.toHeader ("\x7d // namespace ".toList ++ name ++ "\n".toList)
  if m.src_.isSome then m.toSrc ("\x7d // namespace ".toList ++ name ++ "\n".toList) else m

/-- The local `language` of `Mocker::TraverseLinkageSpecDecl`: assigned only when
there is a source stream. -/
def linkageLanguageText (m : Mocker) (linkageLanguage : LinkageSpecLanguage) : Str :=
  if m.src_.isSome then
    (if linkageLanguage = LinkageSpecLanguage.C then "C".toList else "CXX".toList)
  else []

/-- The part of `Mocker::TraverseLinkageSpecDecl` before the base traversal. -/
def enterLinkageSpecDecl (m : Mocker) (linkageLanguage : LinkageSpecLanguage) : Mocker :=
  let m := if m.stage_ = Stage.INCLUDES ∧ m.src_.isSome then m.toSrc "\n".toList else m
  let m := { m with stage_ := Stage.NAMESPACES }
  let m := { m with mockClassName_ := extractClassName m.inputFilePath_ ++ "Mock".toList }
  let m := m.toHeader ("class ".toList ++ m.mockClassName_ ++ " : public ".toList
    ++ m.config_.singletonClass ++ "<".toList ++ m.mockClassName_ ++ ">\n\x7b\npublic:\n".toList)
  if m.src_.isSome then
    m.toSrc ("extern \"".toList ++ linkageLanguageText m linkageLanguage ++ "\" \x7b\n".toList)
  else m

/-- The part of `Mocker::TraverseLinkageSpecDecl` after the base traversal;
`language` is the text assigned before it. -/
def leaveLinkageSpecDecl (m : Mocker) (language : Str) : Mocker :=
  let m := if m.src_.isSome then
      m.toSrc ("\x7d // extern \"".toList ++ language ++ "\"\n".toList)
    else m
  m.toHeader ("\x7d; // class ".toList ++ m.mockClassName_ ++ "\n\n".toList)

/-- The test of `Mocker::TraverseCXXRecordDecl` for returning at once: the class
has no definition, or there is a source stream and no method is static. -/
def skipsCXXRecordDecl (m : Mocker) (hasDefinition : Bool) (methods : List FunctionDecl) :
    Bool :=
  !hasDefinition || (m.src_.isSome && !methods.any (·.isStatic))

/-- The part of `Mocker::TraverseCXXRecordDecl` before the base traversal, for a
class that is not skipped. -/
def enterCXXRecordDecl (m : Mocker) (name : Str) : Mocker :=
  let m := if m.stage_ = Stage.INCLUDES ∨ m.stage_ = Stage.NAMESPACES then
      let m := m.toHeader "\n".toList
      if m.src_.isSome then m.toSrc "\n".toList else m
    else m
  let m := { m with stage_ := Stage.CLASS }
  let m := { m with className_ := name }
  let m := { m with mockClassName_ := withoutI m.className_ ++ "Mock".toList }
  if m.src_.isSome then
    m.toHeader ("class ".toList ++ m.mockClassName_ ++ " : public ".toList
      ++ m.config_.singletonClass ++ "<".toList ++ m.mockClassName_
      ++ ">\n\x7b\npublic:\n".toList
      ++ m.config_.tab ++ m.mockClassName_ ++ "() : ".toList ++ m.config_.singletonClass
      ++ "<".toList ++ m.mockClassName_ ++ ">(*this) \x7b\x7d\n\n".toList)
  else
    m.toHeader ("class ".toList ++ m.mockClassName_ ++ " : public ".toList
      ++ m.className_ ++ "\n\x7b\npublic:\n".toList)

/-- The part of `Mocker::TraverseCXXRecordDecl` after the base traversal. -/
def leaveCXXRecordDecl (m : Mocker) : Mocker :=
  m.toHeader ("\x7d; // class ".toList ++ m.mockClassName_ ++ "\n\n".toList)

/-- The source stream of `m'` is the source stream of `m` with some text appended
(and is absent when that of `m` is). -/
def SrcGrows (m m' : Mocker) : Prop := ∃ t : Str, m'.src_ = m.src_.map (· ++ t)

/-! ## Vocabulary for comparing the two dialects -/

/-- One piece of the header: plain text, or the mock-macro line of a declaration
(whose text depends on the dialect). -/
inductive Piece where
  | text (s : Str)
  | macroLine (function : FunctionDecl)

/-- The header text of a list of pieces in a dialect: the text pieces as they are,
each macro piece rendered by the emitter of the dialect. -/
def renderPieces (style : GmockStyle) : List Piece → Str
  | [] => []
  | .text s :: pieces => s ++ renderPieces style pieces
  | .macroLine function :: pieces =>
    (if style = GmockStyle.Old then oldMockFunction function else newMockFunction function)
      ++ renderPieces style pieces

/-- Everything a visitor state holds besides the dialect and the header text. -/
def Mocker.rest (m : Mocker) :
    Str × Str × Str × Str × Str × Str × Str × Option Str × Stage × Str × Str × Str
      × List FsAction :=
  (m.config_.tab, m.config_.singletonPath, m.config_.singletonClass, m.inputFilePath_,
    m.relativeInputPath_, m.outputHeaderPath_, m.outputSourcePath_, m.src_, m.stage_,
    m.className_, m.mockClassName_, m.errs_, m.fs_)

/-- Two visitor states that agree on everything but the dialect, and whose headers
are the renderings, each in its own dialect, of one and the same list of pieces. -/
def StyleRel (m₁ m₂ : Mocker) : Prop :=
  m₁.rest = m₂.rest
    ∧ ∃ pieces : List Piece,
        m₁.header_ = renderPieces m₁.config_.gmockStyle pieces
          ∧ m₂.header_ = renderPieces m₂.config_.gmockStyle pieces

/-- The net effect of a sequence of writes and assignments of the visitor: text
appended to the header, text appended to the source (when there is one), and new
values of the stage, the class name and the mock class name. -/
def Mocker.emit (m : Mocker) (headerText srcText : Str) (stage : Stage)
    (className mockClassName : Str) : Mocker :=
  { m with
    header_ := m.header_ ++ headerText
    src_ := m.src_.map (· ++ srcText)
    stage_ := stage
    className_ := className
    mockClassName_ := mockClassName }

/-- The part of `Mocker::TraverseTranslationUnitDecl` between the opening of the
streams and the base traversal: the include guard and the includes. -/
def enterTranslationUnitDecl (m : Mocker) : Mocker :=
  let relInputPath := getRelPath m.inputFilePath_
  let guardToken := getGuardToken relInputPath
  let m := m.toHeader ("#ifndef ".toList ++ guardToken ++ "\n".toList
    ++ "#define ".toList ++ guardToken ++ "\n\n".toList
    ++ "#include \"".toList ++ relInputPath ++ "\"\n".toList)
  let m := if m.src_.isSome then
      let m := m.toHeader "#include <estd/singleton.h>\n".toList
      let relOutputHeaderPath := getRelPath m.outputHeaderPath_
      m.toSrc ("#include \"".toList ++ relInputPath ++ "\"\n#include \"".toList
        ++ relOutputHeaderPath ++ "\"\n".toList)
    else m
  m.toHeader "#include <gmock/gmock.h>\n".toList

/-- The part of `Mocker::TraverseTranslationUnitDecl` after the base traversal. -/
def leaveTranslationUnitDecl (m : Mocker) (guardToken : Str) : Mocker :=
  m.toHeader ("#endif // ".toList ++ guardToken ++ "\n".toList)

/-! ## Lemmas on the naming rules -/

theorem getGuardTokenLoop_noSep (e : Str) (he : ∀ x ∈ e, ¬ (x = '/' ∨ x = '.')) :
    ∀ (i : Nat) (done : Str) (u : Nat),
      getGuardTokenLoop e i done u = (done ++ e.map guardChar, u) := by
  induction e with
  | nil => intro i done u; simp [getGuardTokenLoop]
  | cons c cs ih =>
    intro i done u
    have hc : ¬ (c = '/' ∨ c = '.') := he c (List.mem_cons_self _ _)
    have hcs : ∀ x ∈ cs, ¬ (x = '/' ∨ x = '.') := fun x hx => he x (List.mem_cons_of_mem _ hx)
    rw [getGuardTokenLoop, if_neg hc, ih hcs]
    simp [guardChar, hc]

theorem getGuardTokenLoop_split (p e : Str) (c : Char) (hc : c = '/' ∨ c = '.')
    (he : ∀ x ∈ e, ¬ (x = '/' ∨ x = '.')) :
    ∀ (i : Nat) (done : Str) (u : Nat),
      getGuardTokenLoop (p ++ c :: e) i done u
        = (done ++ p.map guardChar ++ '_' :: e.map guardChar, i + p.length) := by
  induction p with
  | nil =>
    intro i done u
    simp only [List.nil_append, List.map_nil, List.append_nil, List.length_nil, Nat.add_zero]
    rw [getGuardTokenLoop, if_pos hc, getGuardTokenLoop_noSep e he]
    simp
  | cons a p ih =>
    intro i done u
    simp only [List.cons_append]
    rw [getGuardTokenLoop]
    split
    · rename_i ha
      rw [ih]
      simp [guardChar, ha]
      omega
    · rename_i ha
      rw [ih]
      simp [guardChar, ha]
      omega

theorem exists_last_split (P : Char → Prop) (l : Str) (h : ∃ x ∈ l, P x) :
    ∃ p c e, l = p ++ c :: e ∧ P c ∧ ∀ x ∈ e, ¬ P x := by
  induction l with
  | nil => simp at h
  | cons a l ih =>
    by_cases h2 : ∃ x ∈ l, P x
    · obtain ⟨p, c, e, hl, hc, he⟩ := ih h2
      exact ⟨a :: p, c, e, by simp [hl], hc, he⟩
    · have ha : P a := by
        obtain ⟨x, hx, hpx⟩ := h
        rcases List.mem_cons.mp hx with rfl | hx
        · exact hpx
        · exact absurd ⟨x, hx, hpx⟩ h2
      exact ⟨[], a, l, rfl, ha, fun x hx hpx => h2 ⟨x, hx, hpx⟩⟩

theorem getGuardToken_split (p e : Str) (c : Char) (hc : c = '/' ∨ c = '.')
    (he : ∀ x ∈ e, ¬ (x = '/' ∨ x = '.')) :
    getGuardToken (p ++ c :: e)
      = p.map guardChar ++ "_MOCK".toList ++ '_' :: e.map guardChar := by
  unfold getGuardToken
  rw [getGuardTokenLoop_split p e c hc he]
  simp [insert]

theorem rfind_eq_none_iff (needle : Str) :
    ∀ s : Str, rfind s needle = none ↔ ¬ needle <:+: s := by
  intro s
  induction s with
  | nil =>
    cases needle with
    | nil => simp [rfind]
    | cons a l => simp [rfind]
  | cons x xs ih =>
    rw [rfind, List.infix_cons_iff]
    cases h : rfind xs needle with
    | some i =>
      have : needle <:+: xs := by
        by_contra hc
        rw [ih.mpr hc] at h
        exact Option.noConfusion h
      simp [this]
    | none =>
      have hn : ¬ needle <:+: xs := ih.mp h
      simp [hn]

theorem rfind_append_of_some (needle : Str) (a s : Str) (i : Nat)
    (h : rfind s needle = some i) : rfind (a ++ s) needle = some (a.length + i) := by
  induction a with
  | nil => simpa using h
  | cons x a ih =>
    simp only [List.cons_append, List.length_cons]
    rw [rfind, ih]
    simp
    omega

theorem rfind_include_here (b : Str) (hb : ¬ "include/".toList <:+: b) :
    rfind ("include/".toList ++ b) "include/".toList = some 0 := by
  have h0 : rfind b "include/".toList = none := (rfind_eq_none_iff _ b).mpr hb
  have hp : ∀ (c : Char) (t : Str), c ≠ 'i' →
      List.isPrefixOf "include/".toList (c :: t) = false := by
    intro c t hc
    have : ('i' == c) = false := by
      simp only [beq_eq_false_iff_ne, ne_eq]
      exact fun h => hc h.symm
    simp [List.isPrefixOf, this]
  have step : ∀ (c : Char) (t : Str), c ≠ 'i' → rfind t "include/".toList = none →
      rfind (c :: t) "include/".toList = none := by
    intro c t hc ht
    rw [rfind, ht]
    simp only [hp c t hc]
    rfl
  have h1 := step '/' b (by decide) h0
  have h2 := step 'e' _ (by decide) h1
  have h3 := step 'd' _ (by decide) h2
  have h4 := step 'u' _ (by decide) h3
  have h5 := step 'l' _ (by decide) h4
  have h6 := step 'c' _ (by decide) h5
  have h7 := step 'n' _ (by decide) h6
  show rfind ('i' :: 'n' :: 'c' :: 'l' :: 'u' :: 'd' :: 'e' :: '/' :: b) "include/".toList = some 0
  rw [rfind, h7]
  simp [List.isPrefixOf]

theorem getRelPath_pos_le (path : Str) (i : Nat)
    (h : rfind path "include/".toList = some i) : i + 8 ≤ path.length := by
  induction path generalizing i with
  | nil => simp [rfind] at h
  | cons x xs ih =>
    rw [rfind] at h
    cases h2 : rfind xs "include/".toList with
    | some j =>
      rw [h2] at h
      have := ih j h2
      simp at h
      simp
      omega
    | none =>
      rw [h2] at h
      dsimp only at h
      by_cases hp : List.isPrefixOf "include/".toList (x :: xs) = true
      · have hpre : "include/".toList <+: (x :: xs) := List.isPrefixOf_iff_prefix.mp hp
        have hlen := hpre.length_le
        rw [if_pos hp] at h
        injection h with h
        subst h
        simpa using hlen
      · rw [if_neg hp] at h
        exact Option.noConfusion h

theorem find_last_of_lt (path : Str) (c : Char) (i : Nat)
    (h : find_last_of path c = some i) : i < path.length := by
  induction path generalizing i with
  | nil => simp [find_last_of] at h
  | cons x xs ih =>
    rw [find_last_of] at h
    cases h2 : find_last_of xs c with
    | some j =>
      rw [h2] at h
      have := ih j h2
      simp at h
      simp
      omega
    | none =>
      rw [h2] at h
      by_cases hx : x = c
      · simp [hx] at h
        subst h
        simp
      · simp [hx] at h

/-- The position `extractClassName` passes to `substr` lies within the path. -/
theorem extractClassName_pos_le (path : Str) :
    (match find_last_of path '/' with
      | none => 0
      | some p => p + 1) ≤ path.length := by
  cases h : find_last_of path '/' with
  | none => simp
  | some p => exact find_last_of_lt path '/' p h

/-! ## Lemmas on the signature renderer -/

theorem printParamListLoop_eq (function : FunctionDecl) (processParam : ParmVarDecl → Str) :
    ∀ (k i : Nat) (OS : Str), i + k = function.params.length →
      printParamListLoop function processParam k i OS
        = OS ++ ", ".toList.intercalate ((function.params.drop i).map processParam) := by
  intro k
  induction k with
  | zero =>
    intro i OS h
    have hi : function.params.length ≤ i := by omega
    simp [printParamListLoop, List.drop_of_length_le hi, List.intercalate]
  | succ k ih =>
    intro i OS h
    have hi : i < function.params.length := by omega
    rw [printParamListLoop]
    simp only [List.get?_eq_getElem?, List.getElem?_eq_getElem hi]
    rw [ih (i + 1) _ (by omega), List.drop_eq_getElem_cons hi]
    by_cases hlast : i = function.getNumParams - 1
    · have hd : function.params.length ≤ i + 1 := by
        simp only [FunctionDecl.getNumParams] at hlast
        omega
      have hne : ¬ (i ≠ function.getNumParams - 1) := fun hc => hc hlast
      rw [if_neg hne, List.drop_of_length_le hd]
      simp [List.intercalate]
    · have hd : i + 1 < function.params.length := by
        simp only [FunctionDecl.getNumParams] at hlast
        omega
      obtain ⟨q, rest, hq⟩ : ∃ q rest, function.params.drop (i + 1) = q :: rest :=
        ⟨_, _, List.drop_eq_getElem_cons hd⟩
      rw [if_pos hlast, hq]
      simp [List.intercalate]

theorem printParamListWith_eq (function : FunctionDecl) (processParam : ParmVarDecl → Str) :
    printParamListWith function processParam
      = ", ".toList.intercalate (function.params.map processParam) := by
  unfold printParamListWith
  rw [FunctionDecl.getNumParams, printParamListLoop_eq function processParam _ 0 [] (by simp)]
  simp

/-! ## Lemmas on the visitor: the header stream only grows -/

theorem VisitCXXMethodDecl_header (m : Mocker) (method : FunctionDecl) :
    m.header_ <+: (VisitCXXMethodDecl m method).2.header_ := by
  unfold VisitCXXMethodDecl
  simp only [Mocker.toHeader, Mocker.toSrc]
  split_ifs <;> simp

theorem VisitFunctionDecl_header (m : Mocker) (function : FunctionDecl) :
    m.header_ <+: (VisitFunctionDecl m function).2.header_ := by
  unfold VisitFunctionDecl
  simp only [Mocker.toHeader, Mocker.toSrc]
  split_ifs <;> simp

theorem TraverseLinkageSpecDecl_header (base : Mocker → Bool × Mocker)
    (hb : ∀ m, m.header_ <+: (base m).2.header_) (m : Mocker)
    (language : LinkageSpecLanguage) :
    m.header_ <+: (TraverseLinkageSpecDecl base m language).2.header_ := by
  unfold TraverseLinkageSpecDecl
  simp only [Mocker.toHeader, Mocker.toSrc, apply_ite Mocker.header_, ite_self]
  refine List.IsPrefix.trans ?_ (List.prefix_append _ _)
  refine List.IsPrefix.trans ?_ (hb _)
  simp only [apply_ite Mocker.header_, ite_self]
  exact List.prefix_append _ _

theorem TraverseNamespaceDecl_header (base : Mocker → Bool × Mocker)
    (hb : ∀ m, m.header_ <+: (base m).2.header_) (m : Mocker) (name : Str) :
    m.header_ <+: (TraverseNamespaceDecl base m name).2.header_ := by
  unfold TraverseNamespaceDecl
  simp only [Mocker.toHeader, Mocker.toSrc, apply_ite Mocker.header_, ite_self]
  refine List.IsPrefix.trans ?_ (List.prefix_append _ _)
  refine List.IsPrefix.trans ?_ (hb _)
  simp only [apply_ite Mocker.header_, ite_self]
  refine List.IsPrefix.trans ?_ (List.prefix_append _ _)
  split_ifs <;> simp

theorem TraverseCXXRecordDecl_header (base : Mocker → Bool × Mocker)
    (hb : ∀ m, m.header_ <+: (base m).2.header_) (m : Mocker) (name : Str)
    (hasDefinition : Bool) (methods : List FunctionDecl) :
    m.header_ <+: (TraverseCXXRecordDecl base m name hasDefinition methods).2.header_ := by
  unfold TraverseCXXRecordDecl
  by_cases h1 : (!hasDefinition) = true
  · rw [if_pos h1]
  · rw [if_neg h1]
    dsimp only
    by_cases h2 : (m.src_.isSome &&
        (if m.src_.isSome = true then !methods.any (·.isStatic) else true)) = true
    · rw [if_pos h2]
    · rw [if_neg h2]
      simp only [Mocker.toHeader, Mocker.toSrc, apply_ite Mocker.header_, ite_self]
      refine List.IsPrefix.trans ?_ (List.prefix_append _ _)
      refine List.IsPrefix.trans ?_ (hb _)
      simp only [apply_ite Mocker.header_, ite_self]
      split_ifs <;> simp

mutual
theorem TraverseDecl_header (m : Mocker) :
    ∀ D : Decl, m.header_ <+: (TraverseDecl m D).2.header_
  | .LinkageSpec loc language children => by
    rw [TraverseDecl]
    split_ifs
    · exact List.prefix_refl _
    · exact TraverseLinkageSpecDecl_header _
        (fun m => TraverseDeclContextHelper_header m children) m language
  | .Namespace loc name children => by
    rw [TraverseDecl]
    split_ifs
    · exact List.prefix_refl _
    · exact TraverseNamespaceDecl_header _
        (fun m => TraverseDeclContextHelper_header m children) m name
  | .CXXRecord loc name hasDefinition children => by
    rw [TraverseDecl]
    split_ifs
    · exact List.prefix_refl _
    · exact TraverseCXXRecordDecl_header _
        (fun m => TraverseDeclContextHelper_header m children) m name _ _
  | .Function loc function => by
    rw [TraverseDecl]
    split_ifs
    · exact List.prefix_refl _
    · exact VisitCXXMethodDecl_header m function
    · exact VisitFunctionDecl_header m function
  | .Other loc => by
    rw [TraverseDecl]
    split_ifs
    · exact List.prefix_refl _
    · exact List.prefix_refl _
theorem TraverseDeclContextHelper_header (m : Mocker) :
    ∀ ds : DeclList, m.header_ <+: (TraverseDeclContextHelper m ds).2.header_
  | .nil => by
    rw [TraverseDeclContextHelper]
  | .cons d ds => by
    rw [TraverseDeclContextHelper]
    split_ifs
    · exact (TraverseDecl_header m d).trans (TraverseDeclContextHelper_header _ ds)
    · exact TraverseDecl_header m d
end
theorem openOutputStreams_ok (fs : FileSystem) (m : Mocker)
    (hok : (openOutputStreams fs m).1 = true) :
    (openOutputStreams fs m).2.header_ = []
      ∧ (openOutputStreams fs m).2.inputFilePath_ = m.inputFilePath_ := by
  unfold openOutputStreams at hok ⊢
  simp only [Mocker.request, Mocker.toErrs] at hok ⊢
  split_ifs at hok ⊢ <;> (repeat' split at hok) <;> simp_all

theorem TraverseTranslationUnitDecl_guard (fs : FileSystem) (base : Mocker → Bool × Mocker)
    (hb : ∀ m, m.header_ <+: (base m).2.header_) (m : Mocker)
    (hok : (TraverseTranslationUnitDecl fs base m).1 = true) :
    ("#ifndef ".toList ++ getGuardToken (getRelPath m.inputFilePath_) ++ "\n".toList
      ++ "#define ".toList ++ getGuardToken (getRelPath m.inputFilePath_) ++ "\n\n".toList
      ++ "#include \"".toList ++ getRelPath m.inputFilePath_ ++ "\"\n".toList)
      <+: (TraverseTranslationUnitDecl fs base m).2.header_ := by
  unfold TraverseTranslationUnitDecl at hok ⊢
  dsimp only at hok ⊢
  by_cases h1 : (!(openOutputStreams fs m).1) = true
  · rw [if_pos h1] at hok
    rw [hok] at h1
    exact absurd h1 (by decide)
  · have hopen : (openOutputStreams fs m).1 = true := by simpa using h1
    obtain ⟨hh, hi⟩ := openOutputStreams_ok fs m hopen
    rw [if_neg h1]
    simp only [Mocker.toHeader, Mocker.toSrc, apply_ite Mocker.header_, ite_self]
    refine List.IsPrefix.trans ?_ (List.prefix_append _ _)
    refine List.IsPrefix.trans ?_ (hb _)
    simp only [apply_ite Mocker.header_, ite_self, hh, hi, List.nil_append]
    split_ifs <;> simp

theorem withoutI_eq (className : Str) :
    withoutI className ++ "Mock".toList = specMockClassName className := by
  unfold withoutI specMockClassName
  split
  · simp
  · rename_i h
    cases className with
    | nil => simp
    | cons c cs =>
      have hc : c ≠ 'I' := fun hc => h cs (by rw [hc])
      simp [hc]

theorem TraverseCXXRecordDecl_headerOnly (m : Mocker) (name : Str) (hsrc : m.src_ = none)
    (base : Mocker → Bool × Mocker) (methods : List FunctionDecl) :
    TraverseCXXRecordDecl base m name true methods
      = ((base (enteredClass m name)).1,
         (base (enteredClass m name)).2.toHeader ("\x7d; // class ".toList
           ++ (base (enteredClass m name)).2.mockClassName_ ++ "\n\n".toList)) := by
  unfold TraverseCXXRecordDecl enteredClass
  simp only [Mocker.toHeader, Mocker.toSrc, hsrc, withoutI_eq]
  by_cases hst : m.stage_ = Stage.INCLUDES ∨ m.stage_ = Stage.NAMESPACES
  · simp [hst, hsrc]
  · simp [hst, hsrc]

/-- Off `const` the current-dialect emitter writes the line with the qualifier
segment of the specification: `, (override)` for a virtual method and nothing for
a non-virtual method or a free function. -/
theorem newMockFunction_nonconst (function : FunctionDecl)
    (h : function.isConst = false) :
    newMockFunction function = mockMethodLine function (specQualifiers function) := by
  unfold newMockFunction mockMethodLine specQualifiers printParamTypeList joinParams
  rw [printParamListWith_eq]
  cases hm : function.asMethod with
  | none => simp
  | some method =>
    simp only [FunctionDecl.isConst, hm, Option.any_some] at h
    cases hv : method.isVirtual <;> simp_all

/-- Every const virtual method gets two qualifier segments from the current-dialect
emitter, `, (const, override)` and then `, (override)`. -/
theorem newMockFunction_const_virtual (function : FunctionDecl)
    (hc : function.isConst = true) (hv : function.isVirtual = true) :
    newMockFunction function
      = mockMethodLine function ", (const, override), (override)".toList := by
  unfold newMockFunction mockMethodLine printParamTypeList joinParams
  rw [printParamListWith_eq]
  cases hm : function.asMethod with
  | none => simp [FunctionDecl.isConst, hm] at hc
  | some method =>
    simp only [FunctionDecl.isConst, FunctionDecl.isVirtual, hm, Option.any_some] at hc hv
    simp [hc, hv]

/-! ## The claims -/

/-- Claim C1 fails on the code at its own example: for the const virtual method
`void draw() const` the line of the claim is
`MOCK_METHOD(void, draw, (), (const, override));`, and `newMockFunction` appends
`MOCK_METHOD(void, draw, (), (const, override), (override));`. The `const` branch
writes `, (const, override)`, and the test of `isVirtual` that follows it, which
is not an `else` of the `const` branch, writes `, (override)` again. The visitor
of methods passes this method to the emitter (it is virtual and no destructor),
so the doubled segment reaches the generated header. -/
theorem newMockFunction_draw :
    newMockFunction drawDecl
        = "MOCK_METHOD(void, draw, (), (const, override), (override));\n".toList
      ∧ mockMethodLine drawDecl (specQualifiers drawDecl)
        = "MOCK_METHOD(void, draw, (), (const, override));\n".toList
      ∧ newMockFunction drawDecl ≠ mockMethodLine drawDecl (specQualifiers drawDecl)
      ∧ (VisitCXXMethodDecl headerOnlyMocker drawDecl).2.header_
        = headerOnlyMocker.header_
          ++ "  MOCK_METHOD(void, draw, (), (const, override), (override));\n".toList := by
  decide

/-- Claim C2, as stated, fails: for `foo/bar.h` the guard token is not
`FOO_MOCK_BAR_H`. -/
theorem getGuardToken_foo_bar_counterexample :
    getGuardToken "foo/bar.h".toList ≠ "FOO_MOCK_BAR_H".toList := by
  decide

/-- Claim C2, amended: `getGuardToken` applied to `foo/bar.h` returns
`FOO_BAR_MOCK_H`; `getRelPath` maps `include/widgets/widget.h` to
`widgets/widget.h`; and every successful run on the input file
`include/widgets/widget.h` starts its header with `#ifndef WIDGETS_WIDGET_MOCK_H`
followed by the matching `#define`. -/
theorem guard_token_examples :
    getGuardToken "foo/bar.h".toList = "FOO_BAR_MOCK_H".toList
      ∧ getRelPath "include/widgets/widget.h".toList = "widgets/widget.h".toList
      ∧ ∀ (fs : FileSystem) (config : Config) (outputHeaderPath outputSourcePath : Str)
          (tu : DeclList),
          (HandleTranslationUnit fs config "include/widgets/widget.h".toList outputHeaderPath
            outputSourcePath tu).1 = true →
          "#ifndef WIDGETS_WIDGET_MOCK_H\n#define WIDGETS_WIDGET_MOCK_H\n".toList
            <+: (HandleTranslationUnit fs config "include/widgets/widget.h".toList
              outputHeaderPath outputSourcePath tu).2.header_ := by
  refine ⟨by decide, by decide, ?_⟩
  intro fs config outputHeaderPath outputSourcePath tu hok
  have h := TraverseTranslationUnitDecl_guard fs (fun m => TraverseDeclContextHelper m tu)
    (fun m => TraverseDeclContextHelper_header m tu)
    (Mocker.new config "include/widgets/widget.h".toList outputHeaderPath outputSourcePath) hok
  have hrel : getRelPath "include/widgets/widget.h".toList = "widgets/widget.h".toList := by
    decide
  have htok : getGuardToken "widgets/widget.h".toList = "WIDGETS_WIDGET_MOCK_H".toList := by
    decide
  simp only [Mocker.new, hrel, htok] at h
  refine List.IsPrefix.trans ?_ h
  exact ⟨"\n#include \"widgets/widget.h\"\n".toList, by decide⟩

/-- The amended claim C2 at a header-only run on an empty translation unit. -/
theorem guard_token_examples_witness :
    (HandleTranslationUnit FileSystem.ok exampleConfig "include/widgets/widget.h".toList
        "/out/widget_mock.h".toList [] DeclList.nil).1 = true
      ∧ "#ifndef WIDGETS_WIDGET_MOCK_H\n#define WIDGETS_WIDGET_MOCK_H\n".toList
          <+: (HandleTranslationUnit FileSystem.ok exampleConfig
            "include/widgets/widget.h".toList "/out/widget_mock.h".toList []
            DeclList.nil).2.header_ :=
  ⟨by decide, guard_token_examples.2.2 FileSystem.ok exampleConfig "/out/widget_mock.h".toList []
    DeclList.nil (by decide)⟩

/-- Claim C3: visiting a method returns success and sets the stage to `FUNCTIONS`;
with a source stream and a static method it appends the indented macro line of
the configured dialect to the header and the out-of-line definition to the
source; otherwise, for a virtual method that is not a destructor, it appends the
indented macro line to the header and nothing to the source; in every other
case it appends nothing to either stream.  No other member changes. -/
theorem VisitCXXMethodDecl_spec (m : Mocker) (method : FunctionDecl) :
    (VisitCXXMethodDecl m method).1 = true
      ∧ (VisitCXXMethodDecl m method).2.stage_ = Stage.FUNCTIONS
      ∧ (VisitCXXMethodDecl m method).2.mockClassName_ = m.mockClassName_
      ∧ (VisitCXXMethodDecl m method).2.className_ = m.className_
      ∧ (VisitCXXMethodDecl m method).2.config_ = m.config_
      ∧ (∀ s, m.src_ = some s → method.isStatic = true →
          (VisitCXXMethodDecl m method).2.header_
              = m.header_ ++ m.config_.tab ++ m.printMockFunction_ method
            ∧ (VisitCXXMethodDecl m method).2.src_
              = some (s ++ printFunctionDefinition m.mockClassName_ method))
      ∧ (¬ (m.src_.isSome = true ∧ method.isStatic = true) →
          method.isVirtual = true → method.isDestructor = false →
          (VisitCXXMethodDecl m method).2.header_
              = m.header_ ++ m.config_.tab ++ m.printMockFunction_ method
            ∧ (VisitCXXMethodDecl m method).2.src_ = m.src_)
      ∧ (¬ (m.src_.isSome = true ∧ method.isStatic = true) →
          ¬ (method.isVirtual = true ∧ method.isDestructor = false) →
          (VisitCXXMethodDecl m method).2.header_ = m.header_
            ∧ (VisitCXXMethodDecl m method).2.src_ = m.src_) := by
  unfold VisitCXXMethodDecl
  simp only [Mocker.toHeader, Mocker.toSrc, Mocker.printMockFunction_]
  refine ⟨?_, ?_, ?_, ?_, ?_, ?_, ?_, ?_⟩
  · split_ifs <;> rfl
  · split_ifs <;> rfl
  · split_ifs <;> rfl
  · split_ifs <;> rfl
  · split_ifs <;> rfl
  · intro s hs hst
    simp [hs, hst]
  · intro h1 hv hd
    have h1' : ¬ ((m.src_.isSome && method.isStatic) = true) := by simpa using h1
    simp [h1', hv, hd]
  · intro h1 h2
    have h1' : ¬ ((m.src_.isSome && method.isStatic) = true) := by simpa using h1
    have h2' : ¬ ((method.isVirtual && !method.isDestructor) = true) := by simpa using h2
    simp [h1', h2']

/-- Claim C3 at a static method visited in source mode. -/
theorem VisitCXXMethodDecl_spec_witness :
    sourceModeMocker.src_ = some "#include \"widget.h\"\n".toList
      ∧ (staticDecl "Widget".toList "make".toList "int".toList false).isStatic = true
      ∧ (VisitCXXMethodDecl sourceModeMocker
            (staticDecl "Widget".toList "make".toList "int".toList false)).2.header_
          = "#include <gmock/gmock.h>\n  MOCK_METHOD(int, make, ());\n".toList
      ∧ (VisitCXXMethodDecl sourceModeMocker
            (staticDecl "Widget".toList "make".toList "int".toList false)).2.src_
          = some ("#include \"widget.h\"\nint Widget::make()\n\x7b\n"
              ++ "    return WidgetMock::instance().make();\n\x7d\n\n").toList :=
  ⟨rfl, rfl,
    ((VisitCXXMethodDecl_spec sourceModeMocker
      (staticDecl "Widget".toList "make".toList "int".toList false)).2.2.2.2.2.1
        _ rfl rfl).1.trans (by decide),
    ((VisitCXXMethodDecl_spec sourceModeMocker
      (staticDecl "Widget".toList "make".toList "int".toList false)).2.2.2.2.2.1
        _ rfl rfl).2.trans (by decide)⟩

/-- Claim C5: the call expression is `return ` exactly when the return type is not
void, followed by `<M>::instance().<name>(<names>);` where `<names>` is the
parameter names in declaration order separated by `, `. -/
theorem printMockFunctionCall_spec (mockClassName : Str) (function : FunctionDecl) :
    printMockFunctionCall mockClassName function
      = (if function.returnIsVoid = true then [] else "return ".toList)
          ++ (mockClassName ++ "::instance().".toList ++ function.name ++ "(".toList
            ++ joinParams function (·.name) ++ ");".toList) := by
  unfold printMockFunctionCall printParamNameList joinParams
  rw [printParamListWith_eq]
  cases function.returnIsVoid <;> simp

/-- Claim C6: in header-only mode, entering a class `C` that has a definition
writes to the header (after the blank separator line when the stage is still
`INCLUDES` or `NAMESPACES`) the opening `class <M> : public <C>`, a `{` line and a
`public:` line, where `<M>` is `C` without its first character when that
character is `I`, followed by `Mock`; the members are traversed from the state
`entered` so reached, and the header of the whole class traversal starts with
that text. -/
theorem TraverseCXXRecordDecl_headerOnly_opening (m : Mocker) (name : Str)
    (hsrc : m.src_ = none) :
    (∀ (base : Mocker → Bool × Mocker) (methods : List FunctionDecl),
        ∃ entered : Mocker,
          entered.header_ = m.header_
              ++ (if m.stage_ = Stage.INCLUDES ∨ m.stage_ = Stage.NAMESPACES
                  then "\n".toList else [])
              ++ ("class ".toList
                  ++ ((if name.head? = some 'I' then name.drop 1 else name) ++ "Mock".toList)
                  ++ " : public ".toList ++ name ++ "\n\x7b\npublic:\n".toList)
            ∧ entered.src_ = none
            ∧ entered.stage_ = Stage.CLASS
            ∧ entered.className_ = name
            ∧ entered.mockClassName_
                = (if name.head? = some 'I' then name.drop 1 else name) ++ "Mock".toList
            ∧ TraverseCXXRecordDecl base m name true methods
                = ((base entered).1,
                   (base entered).2.toHeader ("\x7d; // class ".toList
                     ++ (base entered).2.mockClassName_ ++ "\n\n".toList)))
      ∧ ∀ (loc : Option Str) (children : DeclList), m.ignores loc = false →
          (m.header_
            ++ (if m.stage_ = Stage.INCLUDES ∨ m.stage_ = Stage.NAMESPACES
                then "\n".toList else [])
            ++ ("class ".toList
                ++ ((if name.head? = some 'I' then name.drop 1 else name) ++ "Mock".toList)
                ++ " : public ".toList ++ name ++ "\n\x7b\npublic:\n".toList))
            <+: (TraverseDecl m (.CXXRecord loc name true children)).2.header_ := by
  refine ⟨fun base methods => ⟨enteredClass m name, rfl, hsrc, rfl, rfl, rfl,
    TraverseCXXRecordDecl_headerOnly m name hsrc base methods⟩, ?_⟩
  intro loc children hloc
  rw [TraverseDecl]
  simp only [Decl.loc, hloc]
  rw [TraverseCXXRecordDecl_headerOnly m name hsrc]
  simp only [Mocker.toHeader]
  refine List.IsPrefix.trans ?_ (List.prefix_append _ _)
  exact TraverseDeclContextHelper_header (enteredClass m name) children

/-- Claim C6 at the class `IWidget` with the method `draw`. -/
theorem TraverseCXXRecordDecl_headerOnly_opening_witness :
    headerOnlyMocker.src_ = none
      ∧ headerOnlyMocker.ignores none = false
      ∧ ("#include <gmock/gmock.h>\n\nclass WidgetMock : public IWidget\n\x7b\npublic:\n").toList
          <+: (TraverseDecl headerOnlyMocker
            (.CXXRecord none "IWidget".toList true
              (.ofList [.Function none drawDecl]))).2.header_ :=
  ⟨rfl, rfl, ((TraverseCXXRecordDecl_headerOnly_opening headerOnlyMocker "IWidget".toList
    rfl).2 none _ rfl)⟩

/-- Claim C7 fails on the code: `extractClassName` looks for the first `.` of the
whole path, not of the file name, so a `.` in the directory part keeps the
extension in the class name.  For `./dir/foo.h` and for `/home/a.b/foo.h` the
fallback mock class name is `Foo.hMock` (the claim: `FooMock`), and a linkage
block of `./dir/foo.h` opens `class Foo.hMock`. -/
theorem extractClassName_dot_in_directory :
    extractClassName "./dir/foo.h".toList ++ "Mock".toList = "Foo.hMock".toList
      ∧ extractClassName "/home/a.b/foo.h".toList ++ "Mock".toList = "Foo.hMock".toList
      ∧ extractClassName "dir/foo.h".toList ++ "Mock".toList = "FooMock".toList
      ∧ (TraverseDecl (Mocker.new exampleConfig "./dir/foo.h".toList "/out/foo_mock.h".toList [])
            (.LinkageSpec none .C .nil)).2.header_
          = ("class Foo.hMock : public estd::singleton<Foo.hMock>\n\x7b\npublic:\n"
              ++ "\x7d; // class Foo.hMock\n\n").toList := by
  decide

/-- Claim C9, as stated, fails: no segment of `src/myinclude/sub/foo.h` is literally
`include`, yet `getRelPath` returns `sub/foo.h`, not the base name `foo.h`. -/
theorem getRelPath_myinclude_counterexample :
    "include".toList ∉ segments "src/myinclude/sub/foo.h".toList
      ∧ getRelPath "src/myinclude/sub/foo.h".toList = "sub/foo.h".toList
      ∧ filename "src/myinclude/sub/foo.h".toList = "foo.h".toList := by
  decide

/-- Claim C9, amended: if the path contains the text `include/` (anywhere, also as
the end of a longer directory name), `getRelPath` returns everything after the
last occurrence of that text; if the path does not contain the text `include/`,
it returns the base name of the file. -/
theorem getRelPath_last_include (path : Str) :
    (∀ a b : Str, path = a ++ "include/".toList ++ b → ¬ "include/".toList <:+: b →
        getRelPath path = b)
      ∧ (¬ "include/".toList <:+: path → getRelPath path = filename path) := by
  constructor
  · intro a b hp hb
    subst hp
    unfold getRelPath
    rw [List.append_assoc, rfind_append_of_some _ a _ 0 (rfind_include_here b hb)]
    simp [substrFrom]
  · intro hp
    unfold getRelPath
    rw [(rfind_eq_none_iff _ path).mpr hp]

/-- The amended claim C9 at `a/include/c.h` and at `src/foo.h`. -/
theorem getRelPath_last_include_witness :
    (¬ "include/".toList <:+: "c.h".toList
        ∧ getRelPath ("a/".toList ++ "include/".toList ++ "c.h".toList) = "c.h".toList)
      ∧ (¬ "include/".toList <:+: "src/foo.h".toList
        ∧ getRelPath "src/foo.h".toList = "foo.h".toList) :=
  ⟨⟨(rfind_eq_none_iff _ _).mp (by decide),
      (getRelPath_last_include _).1 "a/".toList "c.h".toList rfl
        ((rfind_eq_none_iff _ _).mp (by decide))⟩,
    ⟨(rfind_eq_none_iff _ _).mp (by decide),
      ((getRelPath_last_include _).2 ((rfind_eq_none_iff _ _).mp (by decide))).trans
        (by decide)⟩⟩

/-- Claim C10: for a relative path with at least one `/` or `.`, split at its last
separator as `p ++ c :: e`: the transformed path (separators replaced by `_`,
other characters upper-cased) is `P ++ "_" ++ E` with `P`, `E` the transformed `p`,
`e`, the guard token is `P ++ "_MOCK" ++ "_" ++ E`, and its length is the length of
the path plus 5. -/
theorem getGuardToken_spec (relPath : Str) (h : ∃ x ∈ relPath, x = '/' ∨ x = '.') :
    ∃ p c e, relPath = p ++ c :: e ∧ (c = '/' ∨ c = '.') ∧ (∀ x ∈ e, ¬ (x = '/' ∨ x = '.'))
      ∧ relPath.map guardChar = p.map guardChar ++ '_' :: e.map guardChar
      ∧ getGuardToken relPath = p.map guardChar ++ "_MOCK".toList ++ '_' :: e.map guardChar
      ∧ (getGuardToken relPath).length = relPath.length + 5 := by
  obtain ⟨p, c, e, hl, hc, he⟩ := exists_last_split (fun x => x = '/' ∨ x = '.') relPath h
  refine ⟨p, c, e, hl, hc, he, ?_, ?_, ?_⟩
  · subst hl; simp [guardChar, hc]
  · subst hl; exact getGuardToken_split p e c hc he
  · subst hl; rw [getGuardToken_split p e c hc he]; simp; omega

/-- Claim C10 at the relative path `widgets/widget.h`. -/
theorem getGuardToken_spec_witness :
    (∃ x ∈ "widgets/widget.h".toList, x = '/' ∨ x = '.')
      ∧ ∃ p c e, "widgets/widget.h".toList = p ++ c :: e ∧ (c = '/' ∨ c = '.')
        ∧ (∀ x ∈ e, ¬ (x = '/' ∨ x = '.'))
        ∧ ("widgets/widget.h".toList).map guardChar = p.map guardChar ++ '_' :: e.map guardChar
        ∧ getGuardToken "widgets/widget.h".toList
            = p.map guardChar ++ "_MOCK".toList ++ '_' :: e.map guardChar
        ∧ (getGuardToken "widgets/widget.h".toList).length
            = ("widgets/widget.h".toList).length + 5 :=
  ⟨by decide, getGuardToken_spec _ (by decide)⟩

/-- Claim C4 fails on the code: `mockClassName_` is set on entering a class and not
restored on leaving a nested one.  In source mode, for
`class Outer { class Nested { static int b(); }; static void c(); };` the body
written for `Outer::c` calls `NestedMock::instance().c()` (the claim:
`OuterMock::instance().c()`). -/
theorem static_method_after_nested_class :
    (HandleTranslationUnit FileSystem.ok exampleConfig "outer.h".toList
        "/out/outer_mock.h".toList "/out/outer_mock.cpp".toList nestedTree).2.src_
      = some ("#include \"outer.h\"\n#include \"outer_mock.h\"\n\n"
          ++ "int Nested::b()\n\x7b\n    return NestedMock::instance().b();\n\x7d\n\n"
          ++ "void Outer::c()\n\x7b\n    NestedMock::instance().c();\n\x7d\n\n").toList := by
  decide!

/-- Claim C8 fails on the code: outside a linkage block nothing assigns the
file-derived name to `mockClassName_`, which is still empty when no class has
been seen.  In source mode, for `namespace ns { int f(); }` in `foo.h` the body
written for `f` calls `::instance().f()` (the claim: `FooMock::instance().f()`). -/
theorem free_function_in_namespace :
    (HandleTranslationUnit FileSystem.ok exampleConfig "foo.h".toList
        "/out/foo_mock.h".toList "/out/foo_mock.cpp".toList namespaceTree).2.src_
      = some ("#include \"foo.h\"\n#include \"foo_mock.h\"\n\nnamespace ns \x7b\n\n"
          ++ "int f()\n\x7b\n    return ::instance().f();\n\x7d\n\n"
          ++ "\x7d // namespace ns\n").toList
      ∧ extractClassName "foo.h".toList ++ "Mock".toList = "FooMock".toList := by
  decide

/-! ## The claims, continued -/

theorem joinComma_eq (l : List Str) : joinComma l = ", ".toList.intercalate l := by
  induction l with
  | nil => simp [joinComma, List.intercalate]
  | cons a l ih =>
    cases l with
    | nil => simp [joinComma, List.intercalate]
    | cons b rest =>
      rw [joinComma, ih]
      simp [List.intercalate]

/-- Claim C11: the legacy-dialect emitter appends exactly one line,
`MOCK_CONST_METHOD<n>(<name>, <returnType>(<paramTypeList>));` for a const method
and `MOCK_METHOD<n>(<name>, <returnType>(<paramTypeList>));` otherwise, where
`<n>` is the parameter count in decimal and `<paramTypeList>` is the `, `-joined
list of the `n` parameter types. -/
theorem oldMockFunction_line (function : FunctionDecl) :
    oldMockFunction function
        = (if function.isConst = true then "MOCK_CONST_METHOD".toList
            else "MOCK_METHOD".toList)
          ++ Nat.toDigits 10 function.params.length ++ "(".toList ++ function.name
          ++ ", ".toList ++ function.returnType ++ "(".toList
          ++ joinComma (function.params.map (·.originalType)) ++ "));\n".toList
      ∧ (function.params.map (·.originalType)).length = function.params.length := by
  refine ⟨?_, by simp⟩
  unfold oldMockFunction printParamTypeList FunctionDecl.getNumParams
  rw [printParamListWith_eq, joinComma_eq]
  have hrepr : (Nat.repr function.params.length).toList
      = Nat.toDigits 10 function.params.length := rfl
  rw [hrepr]
  cases hm : function.asMethod with
  | none => simp [FunctionDecl.isConst, hm]
  | some method => cases hc : method.isConst <;> simp [FunctionDecl.isConst, hm, hc]

/-- Claim C12: a class declaration without a definition (in either mode), and in
source mode a defined class none of whose methods is static, is skipped:
`TraverseCXXRecordDecl` returns success and the visitor state (both streams, the
stage, the class name, the mock class name) is unchanged, whatever the traversal
of the members would do, i.e. the members are not visited. -/
theorem TraverseCXXRecordDecl_skip (m : Mocker) (name : Str) (hasDefinition : Bool)
    (methods : List FunctionDecl)
    (h : hasDefinition = false
      ∨ (m.src_.isSome = true ∧ ∀ f ∈ methods, f.isStatic = false)) :
    (∀ base : Mocker → Bool × Mocker,
        TraverseCXXRecordDecl base m name hasDefinition methods = (true, m))
      ∧ ∀ (loc : Option Str) (children : DeclList), children.methods = methods →
          TraverseDecl m (.CXXRecord loc name hasDefinition children) = (true, m) := by
  have key : ∀ base : Mocker → Bool × Mocker,
      TraverseCXXRecordDecl base m name hasDefinition methods = (true, m) := by
    intro base
    unfold TraverseCXXRecordDecl
    rcases h with h | ⟨hs, hm⟩
    · simp [h]
    · have hany : (methods.any fun f => f.isStatic) = false := by
        rw [List.any_eq_false]
        intro f hf
        simp [hm f hf]
      by_cases hd : hasDefinition = true
      · simp [hd, hs, hany]
      · simp [hd]
  refine ⟨key, ?_⟩
  intro loc children hc
  rw [TraverseDecl]
  split_ifs
  · rfl
  · rw [hc]
    exact key _

/-- Claim C12 at a declared-only class in header-only mode and at a class without
static methods in source mode. -/
theorem TraverseCXXRecordDecl_skip_witness :
    TraverseDecl headerOnlyMocker (.CXXRecord none "IWidget".toList false .nil)
        = (true, headerOnlyMocker)
      ∧ TraverseDecl sourceModeMocker
          (.CXXRecord none "IWidget".toList true (.ofList [.Function none drawDecl]))
        = (true, sourceModeMocker) :=
  ⟨(TraverseCXXRecordDecl_skip headerOnlyMocker "IWidget".toList false []
      (Or.inl rfl)).2 none .nil rfl,
   (TraverseCXXRecordDecl_skip sourceModeMocker "IWidget".toList true [drawDecl]
      (Or.inr ⟨rfl, by decide⟩)).2 none _ rfl⟩

/-- Claim C15 fails on the code: for a C++ linkage block the language text is `CXX`,
so in source mode `extern "C++" { int f(); }` opens `extern "CXX" {` and closes
`} // extern "CXX"` in the source (the claim: `extern "C++" {`); a C linkage
block opens `extern "C" {`. -/
theorem linkage_block_language_text :
    (HandleTranslationUnit FileSystem.ok exampleConfig "foo.h".toList
        "/out/foo_mock.h".toList "/out/foo_mock.cpp".toList cxxLinkageTree).2.src_
      = some ("#include \"foo.h\"\n#include \"foo_mock.h\"\n\n"
          ++ "extern \"CXX\" \x7b\n\n"
          ++ "int f()\n\x7b\n    return FooMock::instance().f();\n\x7d\n\n"
          ++ "\x7d // extern \"CXX\"\n").toList
      ∧ (TraverseDecl sourceModeMocker (.LinkageSpec none .C .nil)).2.src_
        = some ("#include \"widget.h\"\nextern \"C\" \x7b\n"
            ++ "\x7d // extern \"C\"\n").toList := by
  decide!

/-- Claim C18 fails on the code: the body of a definition is indented by four
spaces, a constant of `printFunctionDefinition`, not by the configured tab.  With
a tab of two spaces the macro line in the header is indented by two spaces and
the call in the source by four. -/
theorem definition_indent_is_four_spaces :
    (∀ (mockClassName : Str) (function : FunctionDecl),
        printFunctionDefinition mockClassName function
          = printFunctionSignature function ++ "\n\x7b\n".toList ++ "    ".toList
            ++ printMockFunctionCall mockClassName function ++ "\n\x7d\n\n".toList)
      ∧ sourceModeMocker.config_.tab = "  ".toList
      ∧ (VisitFunctionDecl sourceModeMocker freeDecl).2.header_
        = "#include <gmock/gmock.h>\n  MOCK_METHOD(int, f, ());\n".toList
      ∧ (VisitFunctionDecl sourceModeMocker freeDecl).2.src_
        = some ("#include \"widget.h\"\nint f()\n\x7b\n"
            ++ "    return WidgetMock::instance().f();\n\x7d\n\n").toList := by
  refine ⟨?_, by decide, by decide, by decide⟩
  intro mockClassName function
  simp [printFunctionDefinition]

/-- Claim C19: each of the three parameter renderings is the `, `-joined list of
the per-parameter renderings in declaration order (nothing for no parameter, no
separator before the first or after the last entry); the list has one entry per
parameter, and the entry at position `i` of the type list and of the name list
is the type text and the name of parameter `i`. -/
theorem printParamList_spec (function : FunctionDecl) :
    printParamList function = joinComma (function.params.map (·.printed))
      ∧ printParamTypeList function = joinComma (function.params.map (·.originalType))
      ∧ printParamNameList function = joinComma (function.params.map (·.name))
      ∧ (function.params.map (·.printed)).length = function.getNumParams
      ∧ (function.params.map (·.originalType)).length = function.getNumParams
      ∧ (function.params.map (·.name)).length = function.getNumParams
      ∧ (∀ i : Nat, (function.params.map (·.originalType)).get? i
            = (function.params.get? i).map (·.originalType))
      ∧ (∀ i : Nat, (function.params.map (·.name)).get? i
            = (function.params.get? i).map (·.name))
      ∧ (function.getNumParams = 0 →
          printParamList function = [] ∧ printParamTypeList function = []
            ∧ printParamNameList function = []) := by
  have h1 : printParamList function = joinComma (function.params.map (·.printed)) := by
    rw [printParamList, printParamListWith_eq, joinComma_eq]
  have h2 : printParamTypeList function
      = joinComma (function.params.map (·.originalType)) := by
    rw [printParamTypeList, printParamListWith_eq, joinComma_eq]
  have h3 : printParamNameList function = joinComma (function.params.map (·.name)) := by
    rw [printParamNameList, printParamListWith_eq, joinComma_eq]
  refine ⟨h1, h2, h3, by simp [FunctionDecl.getNumParams],
    by simp [FunctionDecl.getNumParams], by simp [FunctionDecl.getNumParams],
    fun i => by simp, fun i => by simp, ?_⟩
  intro h0
  have hp : function.params = [] := by
    simpa [FunctionDecl.getNumParams] using h0
  rw [h1, h2, h3, hp]
  simp [joinComma]

/-- Claim C19 at a method without parameters and at `resize(int w, int h)`. -/
theorem printParamList_spec_witness :
    drawDecl.getNumParams = 0
      ∧ (printParamList drawDecl = [] ∧ printParamTypeList drawDecl = []
          ∧ printParamNameList drawDecl = [])
      ∧ printParamList resizeDecl = "int w, int h".toList :=
  ⟨rfl, (printParamList_spec drawDecl).2.2.2.2.2.2.2.2 rfl,
    (printParamList_spec resizeDecl).1.trans (by decide)⟩

/-- Claim C21 fails on the code: the closing line of a mock class prints
`mockClassName_` as it is after the members have been traversed, and a nested
class has overwritten it.  In source mode, for
`class Outer { class Nested { static int b(); }; static void c(); };` the scope
opened by `class OuterMock : public ...` is closed by `}; // class NestedMock`
(the claim: `}; // class OuterMock`). -/
theorem closing_line_after_nested_class :
    (HandleTranslationUnit FileSystem.ok exampleConfig "outer.h".toList
        "/out/outer_mock.h".toList "/out/outer_mock.cpp".toList nestedTree).2.header_
      = ("#ifndef OUTER_MOCK_H\n#define OUTER_MOCK_H\n\n#include \"outer.h\"\n"
          ++ "#include <estd/singleton.h>\n#include <gmock/gmock.h>\n\n"
          ++ "class OuterMock : public estd::singleton<OuterMock>\n\x7b\npublic:\n"
          ++ "  OuterMock() : estd::singleton<OuterMock>(*this) \x7b\x7d\n\n"
          ++ "class NestedMock : public estd::singleton<NestedMock>\n\x7b\npublic:\n"
          ++ "  NestedMock() : estd::singleton<NestedMock>(*this) \x7b\x7d\n\n"
          ++ "  MOCK_METHOD(int, b, ());\n"
          ++ "\x7d; // class NestedMock\n\n"
          ++ "  MOCK_METHOD(void, c, ());\n"
          ++ "\x7d; // class NestedMock\n\n"
          ++ "#endif // OUTER_MOCK_H\n").toList := by
  decide!

theorem openOutputStreams_relative_header (fs : FileSystem) (m : Mocker)
    (h : is_absolute m.outputHeaderPath_ = false) :
    openOutputStreams fs m
      = (false, m.toErrs ("Output header path is not absolute: ".toList
          ++ m.outputHeaderPath_ ++ "\n".toList)) := by
  unfold openOutputStreams
  simp [h]

theorem openOutputStreams_relative_source (fs : FileSystem) (m : Mocker)
    (hh : is_absolute m.outputHeaderPath_ = true) (hne : m.outputSourcePath_ ≠ [])
    (hs : is_absolute m.outputSourcePath_ = false) :
    (openOutputStreams fs m).1 = false
      ∧ (openOutputStreams fs m).2.src_ = m.src_
      ∧ (openOutputStreams fs m).2.fs_
        = m.fs_ ++ FsAction.create_directories (parent_path m.outputHeaderPath_)
            :: (match fs.create_directories (parent_path m.outputHeaderPath_) with
                | some _ => []
                | none => [FsAction.openFile m.outputHeaderPath_]) := by
  unfold openOutputStreams
  simp only [Mocker.request, Mocker.toErrs]
  have hne2 : m.outputSourcePath_.isEmpty = false := by
    cases hp : m.outputSourcePath_ with
    | nil => exact absurd hp hne
    | cons a l => rfl
  cases h1 : fs.create_directories (parent_path m.outputHeaderPath_) with
  | some msg => simp [hh]
  | none =>
    cases h2 : fs.openFile m.outputHeaderPath_ with
    | some msg => simp [hh]
    | none => simp [hh, hs, hne2]

/-- Claim C16, as stated, fails: with the absolute header path `/out/foo_mock.h` and
the relative source path `foo_mock.cpp` the run returns failure, but by then the
directory of the header has been created and the header file opened. -/
theorem relative_source_path_counterexample :
    (HandleTranslationUnit FileSystem.ok exampleConfig "foo.h".toList
        "/out/foo_mock.h".toList "foo_mock.cpp".toList namespaceTree).1 = false
      ∧ (HandleTranslationUnit FileSystem.ok exampleConfig "foo.h".toList
          "/out/foo_mock.h".toList "foo_mock.cpp".toList namespaceTree).2.fs_
        = [FsAction.create_directories "/out".toList,
           FsAction.openFile "/out/foo_mock.h".toList] := by
  decide!

/-- Claim C16, amended: a run whose header output path is not absolute returns
failure before any directory or file has been created or opened.  A run whose
header path is absolute and whose supplied (non-empty) source path is not
absolute also returns failure without traversing any declaration and without
creating or opening anything for the source, but only after the directory of
the header has been created and, when that succeeded, the header file opened. -/
theorem TraverseTranslationUnitDecl_relative_paths (fs : FileSystem)
    (base : Mocker → Bool × Mocker) (m : Mocker) :
    (is_absolute m.outputHeaderPath_ = false →
        (TraverseTranslationUnitDecl fs base m).1 = false
          ∧ (TraverseTranslationUnitDecl fs base m).2.fs_ = m.fs_
          ∧ (TraverseTranslationUnitDecl fs base m).2.header_ = m.header_
          ∧ (TraverseTranslationUnitDecl fs base m).2.src_ = m.src_)
      ∧ (is_absolute m.outputHeaderPath_ = true → m.outputSourcePath_ ≠ [] →
          is_absolute m.outputSourcePath_ = false →
          (TraverseTranslationUnitDecl fs base m).1 = false
            ∧ TraverseTranslationUnitDecl fs base m = openOutputStreams fs m
            ∧ (TraverseTranslationUnitDecl fs base m).2.src_ = m.src_
            ∧ (TraverseTranslationUnitDecl fs base m).2.fs_
              = m.fs_ ++ FsAction.create_directories (parent_path m.outputHeaderPath_)
                  :: (match fs.create_directories (parent_path m.outputHeaderPath_) with
                      | some _ => []
                      | none => [FsAction.openFile m.outputHeaderPath_])) := by
  constructor
  · intro h
    have h1 := openOutputStreams_relative_header fs m h
    unfold TraverseTranslationUnitDecl
    simp [h1, Mocker.toErrs]
  · intro hh hne hs
    obtain ⟨h1, h2, h3⟩ := openOutputStreams_relative_source fs m hh hne hs
    have he : TraverseTranslationUnitDecl fs base m = openOutputStreams fs m := by
      unfold TraverseTranslationUnitDecl
      simp [h1]
    rw [he]
    exact ⟨h1, rfl, h2, h3⟩

/-- The amended claim C16 at a relative header path and at a relative source path. -/
theorem TraverseTranslationUnitDecl_relative_paths_witness :
    (is_absolute "foo_mock.h".toList = false
        ∧ (HandleTranslationUnit FileSystem.ok exampleConfig "foo.h".toList
            "foo_mock.h".toList [] namespaceTree).1 = false
        ∧ (HandleTranslationUnit FileSystem.ok exampleConfig "foo.h".toList
            "foo_mock.h".toList [] namespaceTree).2.fs_ = [])
      ∧ (is_absolute "/out/foo_mock.h".toList = true ∧ "foo_mock.cpp".toList ≠ []
        ∧ is_absolute "foo_mock.cpp".toList = false
        ∧ (HandleTranslationUnit FileSystem.ok exampleConfig "foo.h".toList
            "/out/foo_mock.h".toList "foo_mock.cpp".toList namespaceTree).1 = false) :=
  ⟨⟨rfl,
     ((TraverseTranslationUnitDecl_relative_paths FileSystem.ok
        (fun m => TraverseDeclContextHelper m namespaceTree)
        (Mocker.new exampleConfig "foo.h".toList "foo_mock.h".toList [])).1 rfl).1,
     ((TraverseTranslationUnitDecl_relative_paths FileSystem.ok
        (fun m => TraverseDeclContextHelper m namespaceTree)
        (Mocker.new exampleConfig "foo.h".toList "foo_mock.h".toList [])).1 rfl).2.1⟩,
   ⟨rfl, by decide, rfl,
     ((TraverseTranslationUnitDecl_relative_paths FileSystem.ok
        (fun m => TraverseDeclContextHelper m namespaceTree)
        (Mocker.new exampleConfig "foo.h".toList "/out/foo_mock.h".toList
          "foo_mock.cpp".toList)).2 rfl (by decide) rfl).1⟩⟩

/-- Claim C17 fails on the code: for a `style` that is neither `old` nor `new` the
constructor of `Config` does not assign `gmockStyle`, and the member has no
default: it keeps whatever value it held.  With the style `legacy` and that
value being `Old`, the configuration has the legacy dialect and the mocker built
from it uses `oldMockFunction` (the claim: the current dialect and
`newMockFunction`).  The styles `old` and `new` select the legacy and the
current emitter whatever the member held. -/
theorem unrecognized_style_keeps_indeterminate_value :
    (∀ indeterminate : GmockStyle,
        (Config.ofJson indeterminate (configWithStyle (.string "legacy".toList))).map
          (·.gmockStyle) = some indeterminate)
      ∧ (∀ (config : Config) (inputFilePath outputHeaderPath outputSourcePath : Str),
          Config.ofJson GmockStyle.Old (configWithStyle (.string "legacy".toList))
            = some config →
          (Mocker.new config inputFilePath outputHeaderPath
            outputSourcePath).printMockFunction_ = oldMockFunction)
      ∧ (∀ (indeterminate : GmockStyle) (config : Config)
          (inputFilePath outputHeaderPath outputSourcePath : Str),
          Config.ofJson indeterminate (configWithStyle (.string "old".toList))
            = some config →
          config.gmockStyle = GmockStyle.Old
            ∧ (Mocker.new config inputFilePath outputHeaderPath
              outputSourcePath).printMockFunction_ = oldMockFunction)
      ∧ (∀ (indeterminate : GmockStyle) (config : Config)
          (inputFilePath outputHeaderPath outputSourcePath : Str),
          Config.ofJson indeterminate (configWithStyle (.string "new".toList))
            = some config →
          config.gmockStyle = GmockStyle.New
            ∧ (Mocker.new config inputFilePath outputHeaderPath
              outputSourcePath).printMockFunction_ = newMockFunction) := by
  refine ⟨?_, ?_, ?_, ?_⟩
  · intro indeterminate
    cases indeterminate <;> decide
  · intro config a b c h
    have hc : config.gmockStyle = GmockStyle.Old := by
      have h2 : (Config.ofJson GmockStyle.Old
          (configWithStyle (.string "legacy".toList))).map (·.gmockStyle)
          = some GmockStyle.Old := by decide
      rw [h] at h2
      simpa using h2
    simp [Mocker.printMockFunction_, Mocker.new, hc]
  · intro indeterminate config a b c h
    have hc : config.gmockStyle = GmockStyle.Old := by
      have h2 : (Config.ofJson indeterminate
          (configWithStyle (.string "old".toList))).map (·.gmockStyle)
          = some GmockStyle.Old := by cases indeterminate <;> decide
      rw [h] at h2
      simpa using h2
    exact ⟨hc, by simp [Mocker.printMockFunction_, Mocker.new, hc]⟩
  · intro indeterminate config a b c h
    have hc : config.gmockStyle = GmockStyle.New := by
      have h2 : (Config.ofJson indeterminate
          (configWithStyle (.string "new".toList))).map (·.gmockStyle)
          = some GmockStyle.New := by cases indeterminate <;> decide
      rw [h] at h2
      simpa using h2
    exact ⟨hc, by simp [Mocker.printMockFunction_, Mocker.new, hc]⟩

/-- The mocker built from the style `legacy`, when the unassigned member held `Old`,
renders `void draw() const` in the legacy dialect. -/
theorem unrecognized_style_keeps_indeterminate_value_witness :
    Config.ofJson GmockStyle.Old (configWithStyle (.string "legacy".toList))
        = some { exampleConfig with gmockStyle := GmockStyle.Old }
      ∧ (Mocker.new { exampleConfig with gmockStyle := GmockStyle.Old } "widget.h".toList
          "/out/widget_mock.h".toList []).printMockFunction_ = oldMockFunction :=
  ⟨by decide, unrecognized_style_keeps_indeterminate_value.2.1 _ _ _ _ (by decide)⟩

/-! ## The stage -/

theorem VisitCXXMethodDecl_stage (m : Mocker) (method : FunctionDecl) :
    (VisitCXXMethodDecl m method).2.stage_ = Stage.FUNCTIONS := by
  unfold VisitCXXMethodDecl
  simp only [Mocker.toHeader, Mocker.toSrc]
  split_ifs <;> rfl

theorem VisitFunctionDecl_stage (m : Mocker) (function : FunctionDecl)
    (h : m.stage_ ≠ Stage.INCLUDES) :
    (VisitFunctionDecl m function).2.stage_ ≠ Stage.INCLUDES := by
  unfold VisitFunctionDecl
  simp only [Mocker.toHeader, Mocker.toSrc]
  split_ifs <;> simp [h]

theorem TraverseLinkageSpecDecl_stage (base : Mocker → Bool × Mocker)
    (hb : ∀ m, m.stage_ ≠ Stage.INCLUDES → (base m).2.stage_ ≠ Stage.INCLUDES) (m : Mocker)
    (language : LinkageSpecLanguage) :
    (TraverseLinkageSpecDecl base m language).2.stage_ ≠ Stage.INCLUDES := by
  unfold TraverseLinkageSpecDecl
  simp only [Mocker.toHeader, Mocker.toSrc, apply_ite Mocker.stage_, ite_self]
  apply hb
  simp only [apply_ite Mocker.stage_, ite_self]
  decide

theorem TraverseNamespaceDecl_stage (base : Mocker → Bool × Mocker)
    (hb : ∀ m, m.stage_ ≠ Stage.INCLUDES → (base m).2.stage_ ≠ Stage.INCLUDES) (m : Mocker)
    (name : Str) :
    (TraverseNamespaceDecl base m name).2.stage_ ≠ Stage.INCLUDES := by
  unfold TraverseNamespaceDecl
  simp only [Mocker.toHeader, Mocker.toSrc, apply_ite Mocker.stage_, ite_self]
  apply hb
  simp only [apply_ite Mocker.stage_, ite_self]
  decide

theorem TraverseCXXRecordDecl_stage (base : Mocker → Bool × Mocker)
    (hb : ∀ m, m.stage_ ≠ Stage.INCLUDES → (base m).2.stage_ ≠ Stage.INCLUDES) (m : Mocker)
    (name : Str) (hasDefinition : Bool) (methods : List FunctionDecl)
    (h : m.stage_ ≠ Stage.INCLUDES) :
    (TraverseCXXRecordDecl base m name hasDefinition methods).2.stage_ ≠ Stage.INCLUDES := by
  unfold TraverseCXXRecordDecl
  by_cases h1 : (!hasDefinition) = true
  · rw [if_pos h1]; exact h
  · rw [if_neg h1]
    dsimp only
    by_cases h2 : (m.src_.isSome &&
        (if m.src_.isSome = true then !methods.any (·.isStatic) else true)) = true
    · rw [if_pos h2]; exact h
    · rw [if_neg h2]
      simp only [Mocker.toHeader, Mocker.toSrc, apply_ite Mocker.stage_, ite_self]
      apply hb
      simp only [apply_ite Mocker.stage_, ite_self]
      decide

mutual
theorem TraverseDecl_stage (m : Mocker) (h : m.stage_ ≠ Stage.INCLUDES) :
    ∀ D : Decl, (TraverseDecl m D).2.stage_ ≠ Stage.INCLUDES
  | .LinkageSpec loc language children => by
    rw [TraverseDecl]
    split_ifs
    · exact h
    · exact TraverseLinkageSpecDecl_stage _
        (fun m hm => TraverseDeclContextHelper_stage m hm children) m language
  | .Namespace loc name children => by
    rw [TraverseDecl]
    split_ifs
    · exact h
    · exact TraverseNamespaceDecl_stage _
        (fun m hm => TraverseDeclContextHelper_stage m hm children) m name
  | .CXXRecord loc name hasDefinition children => by
    rw [TraverseDecl]
    split_ifs
    · exact h
    · exact TraverseCXXRecordDecl_stage _
        (fun m hm => TraverseDeclContextHelper_stage m hm children) m name _ _ h
  | .Function loc function => by
    rw [TraverseDecl]
    split_ifs
    · exact h
    · rw [WalkUpFromCXXMethodDecl, VisitCXXMethodDecl_stage]
      decide
    · exact VisitFunctionDecl_stage m function h
  | .Other loc => by
    rw [TraverseDecl]
    split_ifs
    · exact h
    · exact h
theorem TraverseDeclContextHelper_stage (m : Mocker) (h : m.stage_ ≠ Stage.INCLUDES) :
    ∀ ds : DeclList, (TraverseDeclContextHelper m ds).2.stage_ ≠ Stage.INCLUDES
  | .nil => by
    rw [TraverseDeclContextHelper]
    exact h
  | .cons d ds => by
    rw [TraverseDeclContextHelper]
    split_ifs
    · exact TraverseDeclContextHelper_stage _ (TraverseDecl_stage m h d) ds
    · exact TraverseDecl_stage m h d
end

theorem TraverseNamespaceDecl_eq (base : Mocker → Bool × Mocker) (m : Mocker) (name : Str) :
    TraverseNamespaceDecl base m name
      = ((base (enterNamespaceDecl m name)).1,
         leaveNamespaceDecl (base (enterNamespaceDecl m name)).2 name) := rfl

theorem TraverseLinkageSpecDecl_eq (base : Mocker → Bool × Mocker) (m : Mocker)
    (language : LinkageSpecLanguage) :
    TraverseLinkageSpecDecl base m language
      = ((base (enterLinkageSpecDecl m language)).1,
         leaveLinkageSpecDecl (base (enterLinkageSpecDecl m language)).2
           (linkageLanguageText m language)) := by
  unfold TraverseLinkageSpecDecl enterLinkageSpecDecl leaveLinkageSpecDecl linkageLanguageText
  cases hs : m.src_ <;> cases hst : m.stage_ <;> simp [hs, hst, Mocker.toHeader, Mocker.toSrc]

theorem TraverseCXXRecordDecl_eq (base : Mocker → Bool × Mocker) (m : Mocker) (name : Str)
    (hasDefinition : Bool) (methods : List FunctionDecl) :
    TraverseCXXRecordDecl base m name hasDefinition methods
      = if skipsCXXRecordDecl m hasDefinition methods = true then (true, m)
        else ((base (enterCXXRecordDecl m name)).1,
              leaveCXXRecordDecl (base (enterCXXRecordDecl m name)).2) := by
  unfold TraverseCXXRecordDecl skipsCXXRecordDecl enterCXXRecordDecl leaveCXXRecordDecl
  cases hasDefinition <;> cases hs : m.src_ <;>
    cases ha : (methods.any fun f => f.isStatic) <;> simp [hs, ha, Mocker.toHeader, Mocker.toSrc]

/-! ## The source stream only grows -/

theorem SrcGrows.refl (m : Mocker) : SrcGrows m m := ⟨[], by simp⟩

theorem SrcGrows.trans (m₁ m₂ m₃ : Mocker) (h₁ : SrcGrows m₁ m₂) (h₂ : SrcGrows m₂ m₃) :
    SrcGrows m₁ m₃ := by
  obtain ⟨t₁, ht₁⟩ := h₁
  obtain ⟨t₂, ht₂⟩ := h₂
  refine ⟨t₁ ++ t₂, ?_⟩
  rw [ht₂, ht₁]
  cases m₁.src_ <;> simp

theorem SrcGrows.of_eq (m m' : Mocker) (h : m'.src_ = m.src_) : SrcGrows m m' :=
  ⟨[], by simp [h]⟩

theorem VisitCXXMethodDecl_src (m : Mocker) (method : FunctionDecl) :
    SrcGrows m (VisitCXXMethodDecl m method).2 := by
  unfold VisitCXXMethodDecl SrcGrows
  simp only [Mocker.toHeader, Mocker.toSrc]
  split_ifs
  · exact ⟨_, rfl⟩
  · exact ⟨[], by simp⟩
  · exact ⟨[], by simp⟩

theorem VisitFunctionDecl_src (m : Mocker) (function : FunctionDecl) :
    SrcGrows m (VisitFunctionDecl m function).2 := by
  unfold VisitFunctionDecl SrcGrows
  simp only [Mocker.toHeader, Mocker.toSrc]
  split_ifs
  · exact ⟨[], by simp⟩
  · exact ⟨"\n".toList ++ printFunctionDefinition m.mockClassName_ function, by
      cases m.src_ <;> simp⟩
  · exact ⟨_, rfl⟩

theorem enterNamespaceDecl_header (m : Mocker) (name : Str) :
    (enterNamespaceDecl m name).header_
      = m.header_ ++ (if m.stage_ = Stage.INCLUDES then "\n".toList else [])
        ++ ("namespace ".toList ++ name ++ " \x7b\n".toList) := by
  unfold enterNamespaceDecl
  simp only [Mocker.toHeader, Mocker.toSrc, apply_ite Mocker.header_, ite_self]
  split_ifs <;> simp

theorem enterNamespaceDecl_src (m : Mocker) (name : Str) :
    (enterNamespaceDecl m name).src_
      = m.src_.map (· ++ ((if m.stage_ = Stage.INCLUDES then "\n".toList else [])
          ++ ("namespace ".toList ++ name ++ " \x7b\n".toList))) := by
  unfold enterNamespaceDecl
  cases hs : m.src_ <;> cases hst : m.stage_ <;> simp [hs, hst, Mocker.toHeader, Mocker.toSrc]

theorem leaveNamespaceDecl_header (m : Mocker) (name : Str) :
    (leaveNamespaceDecl m name).header_
      = m.header_ ++ ("\x7d // namespace ".toList ++ name ++ "\n".toList) := by
  unfold leaveNamespaceDecl
  simp only [Mocker.toHeader, Mocker.toSrc, apply_ite Mocker.header_, ite_self]

theorem leaveNamespaceDecl_src (m : Mocker) (name : Str) :
    (leaveNamespaceDecl m name).src_
      = m.src_.map (· ++ ("\x7d // namespace ".toList ++ name ++ "\n".toList)) := by
  unfold leaveNamespaceDecl
  cases hs : m.src_ <;> simp [hs, Mocker.toHeader, Mocker.toSrc]

theorem enterLinkageSpecDecl_src (m : Mocker) (language : LinkageSpecLanguage) :
    SrcGrows m (enterLinkageSpecDecl m language) := by
  unfold enterLinkageSpecDecl SrcGrows linkageLanguageText
  cases hs : m.src_ <;> cases hst : m.stage_ <;>
    simp [hs, hst, Mocker.toHeader, Mocker.toSrc]

theorem leaveLinkageSpecDecl_src (m : Mocker) (language : Str) :
    SrcGrows m (leaveLinkageSpecDecl m language) := by
  unfold leaveLinkageSpecDecl SrcGrows
  cases hs : m.src_ <;> simp [hs, Mocker.toHeader, Mocker.toSrc]

theorem enterCXXRecordDecl_src (m : Mocker) (name : Str) :
    SrcGrows m (enterCXXRecordDecl m name) := by
  unfold enterCXXRecordDecl SrcGrows
  cases hs : m.src_ <;> cases hst : m.stage_ <;>
    simp [hs, hst, Mocker.toHeader, Mocker.toSrc]

theorem leaveCXXRecordDecl_src (m : Mocker) : SrcGrows m (leaveCXXRecordDecl m) :=
  SrcGrows.of_eq _ _ rfl

mutual
theorem TraverseDecl_src (m : Mocker) : ∀ D : Decl, SrcGrows m (TraverseDecl m D).2
  | .LinkageSpec loc language children => by
    rw [TraverseDecl]
    split_ifs
    · exact SrcGrows.refl m
    · rw [TraverseLinkageSpecDecl_eq]
      exact SrcGrows.trans _ _ _ (enterLinkageSpecDecl_src m language)
        (SrcGrows.trans _ _ _ (TraverseDeclContextHelper_src _ children)
          (leaveLinkageSpecDecl_src _ _))
  | .Namespace loc name children => by
    rw [TraverseDecl]
    split_ifs
    · exact SrcGrows.refl m
    · rw [TraverseNamespaceDecl_eq]
      exact SrcGrows.trans _ _ _ ⟨_, enterNamespaceDecl_src m name⟩
        (SrcGrows.trans _ _ _ (TraverseDeclContextHelper_src _ children)
          ⟨_, leaveNamespaceDecl_src _ name⟩)
  | .CXXRecord loc name hasDefinition children => by
    rw [TraverseDecl]
    split_ifs
    · exact SrcGrows.refl m
    · rw [TraverseCXXRecordDecl_eq]
      split_ifs
      · exact SrcGrows.refl m
      · exact SrcGrows.trans _ _ _ (enterCXXRecordDecl_src m name)
          (SrcGrows.trans _ _ _ (TraverseDeclContextHelper_src _ children)
            (leaveCXXRecordDecl_src _))
  | .Function loc function => by
    rw [TraverseDecl]
    split_ifs
    · exact SrcGrows.refl m
    · exact VisitCXXMethodDecl_src m function
    · exact VisitFunctionDecl_src m function
  | .Other loc => by
    rw [TraverseDecl]
    split_ifs
    · exact SrcGrows.refl m
    · exact SrcGrows.refl m
theorem TraverseDeclContextHelper_src (m : Mocker) :
    ∀ ds : DeclList, SrcGrows m (TraverseDeclContextHelper m ds).2
  | .nil => by
    rw [TraverseDeclContextHelper]
    exact SrcGrows.refl m
  | .cons d ds => by
    rw [TraverseDeclContextHelper]
    split_ifs
    · exact SrcGrows.trans _ _ _ (TraverseDecl_src m d) (TraverseDeclContextHelper_src _ ds)
    · exact TraverseDecl_src m d
end

/-- Claim C14: traversing a namespace `N` appends to the header (after the blank
separator line when the stage is still `INCLUDES`) the line `namespace <name> {`,
then the output `bodyHeader` of the children of `N`, then the line
`} // namespace <name>`; and in source mode the source stream receives the same
opening line, the output `bodySrc` of the children, and the same closing line
(without a source stream it stays absent).  The children are themselves
traversed by the same rule, so the lines are nested in the order of the tree. -/
theorem TraverseNamespaceDecl_nesting (m : Mocker) (loc : Option Str) (name : Str)
    (children : DeclList) (hloc : m.ignores loc = false) :
    ∃ bodyHeader bodySrc : Str,
      (TraverseDeclContextHelper (enterNamespaceDecl m name) children).2.header_
          = (enterNamespaceDecl m name).header_ ++ bodyHeader
        ∧ (TraverseDeclContextHelper (enterNamespaceDecl m name) children).2.src_
          = (enterNamespaceDecl m name).src_.map (· ++ bodySrc)
        ∧ (TraverseDecl m (.Namespace loc name children)).2.header_
          = m.header_ ++ (if m.stage_ = Stage.INCLUDES then "\n".toList else [])
            ++ ("namespace ".toList ++ name ++ " \x7b\n".toList)
            ++ bodyHeader
            ++ ("\x7d // namespace ".toList ++ name ++ "\n".toList)
        ∧ (TraverseDecl m (.Namespace loc name children)).2.src_
          = m.src_.map (· ++ ((if m.stage_ = Stage.INCLUDES then "\n".toList else [])
            ++ ("namespace ".toList ++ name ++ " \x7b\n".toList)
            ++ bodySrc
            ++ ("\x7d // namespace ".toList ++ name ++ "\n".toList))) := by
  obtain ⟨bodyHeader, hH⟩ := TraverseDeclContextHelper_header (enterNamespaceDecl m name) children
  obtain ⟨bodySrc, hS⟩ := TraverseDeclContextHelper_src (enterNamespaceDecl m name) children
  refine ⟨bodyHeader, bodySrc, hH.symm, hS, ?_, ?_⟩
  · rw [TraverseDecl]
    simp only [Decl.loc, hloc]
    rw [TraverseNamespaceDecl_eq]
    simp only [Bool.false_eq_true, if_false]
    rw [leaveNamespaceDecl_header, ← hH, enterNamespaceDecl_header]
  · rw [TraverseDecl]
    simp only [Decl.loc, hloc]
    rw [TraverseNamespaceDecl_eq]
    simp only [Bool.false_eq_true, if_false]
    rw [leaveNamespaceDecl_src, hS, enterNamespaceDecl_src]
    cases m.src_ <;> simp

/-- Claim C14 at the namespace `ns` with one class, in header-only mode. -/
theorem TraverseNamespaceDecl_nesting_witness :
    headerOnlyMocker.ignores none = false
      ∧ ∃ bodyHeader bodySrc : Str,
        (TraverseDeclContextHelper (enterNamespaceDecl headerOnlyMocker "ns".toList)
            (.ofList [.CXXRecord none "IShape".toList true
              (.ofList [.Function none resizeDecl])])).2.header_
          = (enterNamespaceDecl headerOnlyMocker "ns".toList).header_ ++ bodyHeader
        ∧ (TraverseDeclContextHelper (enterNamespaceDecl headerOnlyMocker "ns".toList)
            (.ofList [.CXXRecord none "IShape".toList true
              (.ofList [.Function none resizeDecl])])).2.src_
          = (enterNamespaceDecl headerOnlyMocker "ns".toList).src_.map (· ++ bodySrc)
        ∧ (TraverseDecl headerOnlyMocker shapeNamespace).2.header_
          = headerOnlyMocker.header_
            ++ (if headerOnlyMocker.stage_ = Stage.INCLUDES then "\n".toList else [])
            ++ ("namespace ".toList ++ "ns".toList ++ " \x7b\n".toList)
            ++ bodyHeader
            ++ ("\x7d // namespace ".toList ++ "ns".toList ++ "\n".toList)
        ∧ (TraverseDecl headerOnlyMocker shapeNamespace).2.src_
          = headerOnlyMocker.src_.map
            (· ++ ((if headerOnlyMocker.stage_ = Stage.INCLUDES then "\n".toList else [])
              ++ ("namespace ".toList ++ "ns".toList ++ " \x7b\n".toList)
              ++ bodySrc
              ++ ("\x7d // namespace ".toList ++ "ns".toList ++ "\n".toList))) :=
  ⟨rfl, TraverseNamespaceDecl_nesting headerOnlyMocker none "ns".toList _ rfl⟩

/-! ## The two dialects select the same declarations -/

theorem renderPieces_append (style : GmockStyle) (ps qs : List Piece) :
    renderPieces style (ps ++ qs) = renderPieces style ps ++ renderPieces style qs := by
  induction ps with
  | nil => simp [renderPieces]
  | cons p ps ih =>
    cases p with
    | text s => simp [renderPieces, ih]
    | macroLine f => simp [renderPieces, ih]

theorem StyleRel.src_eq {m₁ m₂ : Mocker} (h : StyleRel m₁ m₂) : m₁.src_ = m₂.src_ := by
  have := h.1
  simp only [Mocker.rest, Prod.mk.injEq] at this
  exact this.2.2.2.2.2.2.2.1

theorem styleRel_emit (m₁ m₂ : Mocker) (h : StyleRel m₁ m₂) (headerText srcText : Str)
    (stage : Stage) (className mockClassName : Str) :
    StyleRel (m₁.emit headerText srcText stage className mockClassName)
      (m₂.emit headerText srcText stage className mockClassName) := by
  obtain ⟨hr, pieces, h1, h2⟩ := h
  simp only [Mocker.rest, Prod.mk.injEq] at hr
  refine ⟨?_, pieces ++ [Piece.text headerText], ?_, ?_⟩
  · simp only [Mocker.rest, Mocker.emit, Prod.mk.injEq]
    simp [hr]
  · simp [Mocker.emit, renderPieces_append, renderPieces, h1]
  · simp [Mocker.emit, renderPieces_append, renderPieces, h2]

theorem styleRel_macro (m₁ m₂ : Mocker) (h : StyleRel m₁ m₂) (function : FunctionDecl) :
    StyleRel (m₁.toHeader (m₁.printMockFunction_ function))
      (m₂.toHeader (m₂.printMockFunction_ function)) := by
  obtain ⟨hr, pieces, h1, h2⟩ := h
  simp only [Mocker.rest, Prod.mk.injEq] at hr
  refine ⟨?_, pieces ++ [Piece.macroLine function], ?_, ?_⟩
  · simp only [Mocker.rest, Mocker.toHeader, Prod.mk.injEq]
    simp [hr]
  · simp only [Mocker.toHeader, Mocker.printMockFunction_, renderPieces_append, renderPieces,
      h1, List.append_nil]
    split_ifs <;> rfl
  · simp only [Mocker.toHeader, Mocker.printMockFunction_, renderPieces_append, renderPieces,
      h2, List.append_nil]
    split_ifs <;> rfl
theorem enterNamespaceDecl_emit (m : Mocker) (name : Str) :
    enterNamespaceDecl m name
      = m.emit ((if m.stage_ = Stage.INCLUDES then "\n".toList else [])
            ++ ("namespace ".toList ++ name ++ " \x7b\n".toList))
          ((if m.stage_ = Stage.INCLUDES then "\n".toList else [])
            ++ ("namespace ".toList ++ name ++ " \x7b\n".toList))
          Stage.NAMESPACES m.className_ m.mockClassName_ := by
  unfold enterNamespaceDecl Mocker.emit
  cases hs : m.src_ <;> cases hst : m.stage_ <;> simp [hs, hst, Mocker.toHeader, Mocker.toSrc]

theorem leaveNamespaceDecl_emit (m : Mocker) (name : Str) :
    leaveNamespaceDecl m name
      = m.emit ("\x7d // namespace ".toList ++ name ++ "\n".toList)
          ("\x7d // namespace ".toList ++ name ++ "\n".toList)
          m.stage_ m.className_ m.mockClassName_ := by
  unfold leaveNamespaceDecl Mocker.emit
  cases hs : m.src_ <;> simp [hs, Mocker.toHeader, Mocker.toSrc]

theorem enterLinkageSpecDecl_emit (m : Mocker) (language : LinkageSpecLanguage) :
    enterLinkageSpecDecl m language
      = m.emit ("class ".toList ++ (extractClassName m.inputFilePath_ ++ "Mock".toList)
            ++ " : public ".toList ++ m.config_.singletonClass ++ "<".toList
            ++ (extractClassName m.inputFilePath_ ++ "Mock".toList)
            ++ ">\n\x7b\npublic:\n".toList)
          ((if m.stage_ = Stage.INCLUDES then "\n".toList else [])
            ++ ("extern \"".toList
              ++ (if language = LinkageSpecLanguage.C then "C".toList else "CXX".toList)
              ++ "\" \x7b\n".toList))
          Stage.NAMESPACES m.className_
          (extractClassName m.inputFilePath_ ++ "Mock".toList) := by
  unfold enterLinkageSpecDecl Mocker.emit linkageLanguageText
  cases hs : m.src_ <;> cases hst : m.stage_ <;> simp [hs, hst, Mocker.toHeader, Mocker.toSrc]

theorem leaveLinkageSpecDecl_emit (m : Mocker) (language : Str) :
    leaveLinkageSpecDecl m language
      = m.emit ("\x7d; // class ".toList ++ m.mockClassName_ ++ "\n\n".toList)
          ("\x7d // extern \"".toList ++ language ++ "\"\n".toList)
          m.stage_ m.className_ m.mockClassName_ := by
  unfold leaveLinkageSpecDecl Mocker.emit
  cases hs : m.src_ <;> simp [hs, Mocker.toHeader, Mocker.toSrc]

theorem enterCXXRecordDecl_emit (m : Mocker) (name : Str) :
    enterCXXRecordDecl m name
      = m.emit ((if m.stage_ = Stage.INCLUDES ∨ m.stage_ = Stage.NAMESPACES
              then "\n".toList else [])
            ++ (if m.src_.isSome = true then
                "class ".toList ++ (withoutI name ++ "Mock".toList) ++ " : public ".toList
                  ++ m.config_.singletonClass ++ "<".toList
                  ++ (withoutI name ++ "Mock".toList) ++ ">\n\x7b\npublic:\n".toList
                  ++ m.config_.tab ++ (withoutI name ++ "Mock".toList) ++ "() : ".toList
                  ++ m.config_.singletonClass ++ "<".toList
                  ++ (withoutI name ++ "Mock".toList) ++ ">(*this) \x7b\x7d\n\n".toList
              else
                "class ".toList ++ (withoutI name ++ "Mock".toList) ++ " : public ".toList
                  ++ name ++ "\n\x7b\npublic:\n".toList))
          (if m.stage_ = Stage.INCLUDES ∨ m.stage_ = Stage.NAMESPACES
            then "\n".toList else [])
          Stage.CLASS name (withoutI name ++ "Mock".toList) := by
  unfold enterCXXRecordDecl Mocker.emit
  cases hs : m.src_ <;> cases hst : m.stage_ <;> simp [hs, hst, Mocker.toHeader, Mocker.toSrc]

theorem leaveCXXRecordDecl_emit (m : Mocker) :
    leaveCXXRecordDecl m
      = m.emit ("\x7d; // class ".toList ++ m.mockClassName_ ++ "\n\n".toList) []
          m.stage_ m.className_ m.mockClassName_ := by
  unfold leaveCXXRecordDecl Mocker.emit
  cases hs : m.src_ <;> simp [hs, Mocker.toHeader]

theorem VisitCXXMethodDecl_emit (m : Mocker) (method : FunctionDecl) :
    VisitCXXMethodDecl m method
      = (true,
          if (m.src_.isSome && method.isStatic) = true then
            (m.emit m.config_.tab (printFunctionDefinition m.mockClassName_ method)
              Stage.FUNCTIONS m.className_ m.mockClassName_).toHeader
                ((m.emit m.config_.tab (printFunctionDefinition m.mockClassName_ method)
                  Stage.FUNCTIONS m.className_ m.mockClassName_).printMockFunction_ method)
          else if (method.isVirtual && !method.isDestructor) = true then
            (m.emit m.config_.tab [] Stage.FUNCTIONS m.className_ m.mockClassName_).toHeader
              ((m.emit m.config_.tab [] Stage.FUNCTIONS m.className_
                m.mockClassName_).printMockFunction_ method)
          else m.emit [] [] Stage.FUNCTIONS m.className_ m.mockClassName_) := by
  unfold VisitCXXMethodDecl Mocker.emit
  simp only [Mocker.toHeader, Mocker.toSrc, Mocker.printMockFunction_]
  cases hs : m.src_ <;> split_ifs <;> simp_all

theorem VisitFunctionDecl_emit (m : Mocker) (function : FunctionDecl) :
    VisitFunctionDecl m function
      = (true,
          if m.src_.isSome = true then
            (m.emit ((if m.stage_ = Stage.INCLUDES ∨ m.stage_ = Stage.NAMESPACES
                  then "\n".toList else []) ++ m.config_.tab)
              ((if m.stage_ = Stage.INCLUDES ∨ m.stage_ = Stage.NAMESPACES
                  then "\n".toList else [])
                ++ printFunctionDefinition m.mockClassName_ function)
              Stage.FUNCTIONS m.className_ m.mockClassName_).toHeader
                ((m.emit ((if m.stage_ = Stage.INCLUDES ∨ m.stage_ = Stage.NAMESPACES
                      then "\n".toList else []) ++ m.config_.tab)
                  ((if m.stage_ = Stage.INCLUDES ∨ m.stage_ = Stage.NAMESPACES
                      then "\n".toList else [])
                    ++ printFunctionDefinition m.mockClassName_ function)
                  Stage.FUNCTIONS m.className_ m.mockClassName_).printMockFunction_ function)
          else m) := by
  unfold VisitFunctionDecl Mocker.emit
  simp only [Mocker.toHeader, Mocker.toSrc, Mocker.printMockFunction_]
  cases hs : m.src_ <;> cases hst : m.stage_ <;> simp [hs, hst]
theorem StyleRel.fields {m₁ m₂ : Mocker} (h : StyleRel m₁ m₂) :
    m₁.config_.tab = m₂.config_.tab
      ∧ m₁.config_.singletonClass = m₂.config_.singletonClass
      ∧ m₁.inputFilePath_ = m₂.inputFilePath_
      ∧ m₁.relativeInputPath_ = m₂.relativeInputPath_
      ∧ m₁.outputHeaderPath_ = m₂.outputHeaderPath_
      ∧ m₁.src_ = m₂.src_
      ∧ m₁.stage_ = m₂.stage_
      ∧ m₁.className_ = m₂.className_
      ∧ m₁.mockClassName_ = m₂.mockClassName_ := by
  have hr := h.1
  simp only [Mocker.rest, Prod.mk.injEq] at hr
  obtain ⟨a1, _, a3, a4, a5, a6, _, a8, a9, a10, a11, _, _⟩ := hr
  exact ⟨a1, a3, a4, a5, a6, a8, a9, a10, a11⟩

theorem enterNamespaceDecl_style (m₁ m₂ : Mocker) (h : StyleRel m₁ m₂) (name : Str) :
    StyleRel (enterNamespaceDecl m₁ name) (enterNamespaceDecl m₂ name) := by
  obtain ⟨_, _, _, _, _, _, hst, hc, hmc⟩ := h.fields
  rw [enterNamespaceDecl_emit, enterNamespaceDecl_emit, hst, hc, hmc]
  exact styleRel_emit m₁ m₂ h _ _ _ _ _

theorem leaveNamespaceDecl_style (m₁ m₂ : Mocker) (h : StyleRel m₁ m₂) (name : Str) :
    StyleRel (leaveNamespaceDecl m₁ name) (leaveNamespaceDecl m₂ name) := by
  obtain ⟨_, _, _, _, _, _, hst, hc, hmc⟩ := h.fields
  rw [leaveNamespaceDecl_emit, leaveNamespaceDecl_emit, hst, hc, hmc]
  exact styleRel_emit m₁ m₂ h _ _ _ _ _

theorem enterLinkageSpecDecl_style (m₁ m₂ : Mocker) (h : StyleRel m₁ m₂)
    (language : LinkageSpecLanguage) :
    StyleRel (enterLinkageSpecDecl m₁ language) (enterLinkageSpecDecl m₂ language) := by
  obtain ⟨_, hsc, hin, _, _, _, hst, hc, _⟩ := h.fields
  rw [enterLinkageSpecDecl_emit, enterLinkageSpecDecl_emit, hst, hc, hin, hsc]
  exact styleRel_emit m₁ m₂ h _ _ _ _ _

theorem leaveLinkageSpecDecl_style (m₁ m₂ : Mocker) (h : StyleRel m₁ m₂) (language : Str) :
    StyleRel (leaveLinkageSpecDecl m₁ language) (leaveLinkageSpecDecl m₂ language) := by
  obtain ⟨_, _, _, _, _, _, hst, hc, hmc⟩ := h.fields
  rw [leaveLinkageSpecDecl_emit, leaveLinkageSpecDecl_emit, hst, hc, hmc]
  exact styleRel_emit m₁ m₂ h _ _ _ _ _

theorem enterCXXRecordDecl_style (m₁ m₂ : Mocker) (h : StyleRel m₁ m₂) (name : Str) :
    StyleRel (enterCXXRecordDecl m₁ name) (enterCXXRecordDecl m₂ name) := by
  obtain ⟨ht, hsc, _, _, _, hs, hst, _, _⟩ := h.fields
  rw [enterCXXRecordDecl_emit, enterCXXRecordDecl_emit, hst, hs, hsc, ht]
  exact styleRel_emit m₁ m₂ h _ _ _ _ _

theorem leaveCXXRecordDecl_style (m₁ m₂ : Mocker) (h : StyleRel m₁ m₂) :
    StyleRel (leaveCXXRecordDecl m₁) (leaveCXXRecordDecl m₂) := by
  obtain ⟨_, _, _, _, _, _, hst, hc, hmc⟩ := h.fields
  rw [leaveCXXRecordDecl_emit, leaveCXXRecordDecl_emit, hst, hc, hmc]
  exact styleRel_emit m₁ m₂ h _ _ _ _ _

theorem VisitCXXMethodDecl_style (m₁ m₂ : Mocker) (h : StyleRel m₁ m₂)
    (method : FunctionDecl) :
    StyleRel (VisitCXXMethodDecl m₁ method).2 (VisitCXXMethodDecl m₂ method).2
      ∧ (VisitCXXMethodDecl m₁ method).1 = (VisitCXXMethodDecl m₂ method).1 := by
  obtain ⟨ht, _, _, _, _, hs, _, hc, hmc⟩ := h.fields
  rw [VisitCXXMethodDecl_emit, VisitCXXMethodDecl_emit, hs, hc, hmc, ht]
  refine ⟨?_, rfl⟩
  dsimp only
  split_ifs
  · exact styleRel_macro _ _ (styleRel_emit m₁ m₂ h _ _ _ _ _) method
  · exact styleRel_macro _ _ (styleRel_emit m₁ m₂ h _ _ _ _ _) method
  · exact styleRel_emit m₁ m₂ h _ _ _ _ _

theorem VisitFunctionDecl_style (m₁ m₂ : Mocker) (h : StyleRel m₁ m₂)
    (function : FunctionDecl) :
    StyleRel (VisitFunctionDecl m₁ function).2 (VisitFunctionDecl m₂ function).2
      ∧ (VisitFunctionDecl m₁ function).1 = (VisitFunctionDecl m₂ function).1 := by
  obtain ⟨ht, _, _, _, _, hs, hst, hc, hmc⟩ := h.fields
  rw [VisitFunctionDecl_emit, VisitFunctionDecl_emit, hs, hst, hc, hmc, ht]
  refine ⟨?_, rfl⟩
  dsimp only
  by_cases hsome : m₂.src_.isSome = true
  · rw [if_pos hsome, if_pos hsome]
    exact styleRel_macro _ _ (styleRel_emit m₁ m₂ h _ _ _ _ _) function
  · rw [if_neg hsome, if_neg hsome]
    exact h

mutual
theorem TraverseDecl_style (m₁ m₂ : Mocker) (h : StyleRel m₁ m₂) :
    ∀ D : Decl, StyleRel (TraverseDecl m₁ D).2 (TraverseDecl m₂ D).2
      ∧ (TraverseDecl m₁ D).1 = (TraverseDecl m₂ D).1
  | .LinkageSpec loc language children => by
    have hi : m₁.ignores loc = m₂.ignores loc := by
      simp only [Mocker.ignores, h.fields.2.2.2.1]
    have hl : linkageLanguageText m₁ language = linkageLanguageText m₂ language := by
      simp only [linkageLanguageText, h.fields.2.2.2.2.2.1]
    rw [TraverseDecl, TraverseDecl]
    simp only [Decl.loc, hi, TraverseLinkageSpecDecl_eq, hl]
    split_ifs
    · exact ⟨h, rfl⟩
    · have ih := TraverseDeclContextHelper_style _ _
        (enterLinkageSpecDecl_style m₁ m₂ h language) children
      exact ⟨leaveLinkageSpecDecl_style _ _ ih.1 _, ih.2⟩
  | .Namespace loc name children => by
    have hi : m₁.ignores loc = m₂.ignores loc := by
      simp only [Mocker.ignores, h.fields.2.2.2.1]
    rw [TraverseDecl, TraverseDecl]
    simp only [Decl.loc, hi, TraverseNamespaceDecl_eq]
    split_ifs
    · exact ⟨h, rfl⟩
    · have ih := TraverseDeclContextHelper_style _ _
        (enterNamespaceDecl_style m₁ m₂ h name) children
      exact ⟨leaveNamespaceDecl_style _ _ ih.1 _, ih.2⟩
  | .CXXRecord loc name hasDefinition children => by
    have hi : m₁.ignores loc = m₂.ignores loc := by
      simp only [Mocker.ignores, h.fields.2.2.2.1]
    have hk : skipsCXXRecordDecl m₁ hasDefinition children.methods
        = skipsCXXRecordDecl m₂ hasDefinition children.methods := by
      simp only [skipsCXXRecordDecl, h.fields.2.2.2.2.2.1]
    rw [TraverseDecl, TraverseDecl]
    simp only [Decl.loc, hi, TraverseCXXRecordDecl_eq, hk]
    split_ifs
    · exact ⟨h, rfl⟩
    · exact ⟨h, rfl⟩
    · have ih := TraverseDeclContextHelper_style _ _
        (enterCXXRecordDecl_style m₁ m₂ h name) children
      exact ⟨leaveCXXRecordDecl_style _ _ ih.1, ih.2⟩
  | .Function loc function => by
    have hi : m₁.ignores loc = m₂.ignores loc := by
      simp only [Mocker.ignores, h.fields.2.2.2.1]
    rw [TraverseDecl, TraverseDecl]
    simp only [Decl.loc, hi]
    split_ifs
    · exact ⟨h, rfl⟩
    · exact VisitCXXMethodDecl_style m₁ m₂ h function
    · exact VisitFunctionDecl_style m₁ m₂ h function
  | .Other loc => by
    have hi : m₁.ignores loc = m₂.ignores loc := by
      simp only [Mocker.ignores, h.fields.2.2.2.1]
    rw [TraverseDecl, TraverseDecl]
    simp only [Decl.loc, hi]
    split_ifs
    · exact ⟨h, rfl⟩
    · exact ⟨h, rfl⟩
theorem TraverseDeclContextHelper_style (m₁ m₂ : Mocker) (h : StyleRel m₁ m₂) :
    ∀ ds : DeclList,
      StyleRel (TraverseDeclContextHelper m₁ ds).2 (TraverseDeclContextHelper m₂ ds).2
        ∧ (TraverseDeclContextHelper m₁ ds).1 = (TraverseDeclContextHelper m₂ ds).1
  | .nil => by
    rw [TraverseDeclContextHelper, TraverseDeclContextHelper]
    exact ⟨h, rfl⟩
  | .cons d ds => by
    have hd := TraverseDecl_style m₁ m₂ h d
    rw [TraverseDeclContextHelper, TraverseDeclContextHelper]
    simp only [hd.2]
    split_ifs
    · exact TraverseDeclContextHelper_style _ _ hd.1 ds
    · exact ⟨hd.1, rfl⟩
end

theorem openOutputStreams_header_nil (fs : FileSystem) (m : Mocker) (h : m.header_ = []) :
    (openOutputStreams fs m).2.header_ = [] := by
  unfold openOutputStreams
  simp only [Mocker.request, Mocker.toErrs]
  split_ifs <;> (repeat' split) <;> simp_all

theorem openOutputStreams_rest (fs : FileSystem) (m₁ m₂ : Mocker) (h : m₁.rest = m₂.rest) :
    (openOutputStreams fs m₁).1 = (openOutputStreams fs m₂).1
      ∧ (openOutputStreams fs m₁).2.rest = (openOutputStreams fs m₂).2.rest := by
  simp only [Mocker.rest, Prod.mk.injEq] at h
  obtain ⟨a1, a2, a3, a4, a5, a6, a7, a8, a9, a10, a11, a12, a13⟩ := h
  unfold openOutputStreams
  simp only [Mocker.request, Mocker.toErrs, Mocker.rest, a1, a2, a3, a4, a5, a6, a7, a8, a9,
    a10, a11, a12, a13]
  split_ifs <;> (repeat' split) <;> simp_all
theorem TraverseTranslationUnitDecl_eq (fs : FileSystem) (base : Mocker → Bool × Mocker)
    (m : Mocker) :
    TraverseTranslationUnitDecl fs base m
      = if (openOutputStreams fs m).1 = true then
          ((base (enterTranslationUnitDecl (openOutputStreams fs m).2)).1,
           leaveTranslationUnitDecl
             (base (enterTranslationUnitDecl (openOutputStreams fs m).2)).2
             (getGuardToken (getRelPath (openOutputStreams fs m).2.inputFilePath_)))
        else openOutputStreams fs m := by
  unfold TraverseTranslationUnitDecl enterTranslationUnitDecl leaveTranslationUnitDecl
  cases h : (openOutputStreams fs m).1 <;> simp [h]

theorem enterTranslationUnitDecl_emit (m : Mocker) :
    enterTranslationUnitDecl m
      = m.emit ("#ifndef ".toList ++ getGuardToken (getRelPath m.inputFilePath_)
            ++ "\n".toList ++ "#define ".toList
            ++ getGuardToken (getRelPath m.inputFilePath_) ++ "\n\n".toList
            ++ "#include \"".toList ++ getRelPath m.inputFilePath_ ++ "\"\n".toList
            ++ (if m.src_.isSome = true then "#include <estd/singleton.h>\n".toList else [])
            ++ "#include <gmock/gmock.h>\n".toList)
          ("#include \"".toList ++ getRelPath m.inputFilePath_
            ++ "\"\n#include \"".toList ++ getRelPath m.outputHeaderPath_ ++ "\"\n".toList)
          m.stage_ m.className_ m.mockClassName_ := by
  unfold enterTranslationUnitDecl Mocker.emit
  cases hs : m.src_ <;> simp [hs, Mocker.toHeader, Mocker.toSrc]

theorem leaveTranslationUnitDecl_emit (m : Mocker) (guardToken : Str) :
    leaveTranslationUnitDecl m guardToken
      = m.emit ("#endif // ".toList ++ guardToken ++ "\n".toList) []
          m.stage_ m.className_ m.mockClassName_ := by
  unfold leaveTranslationUnitDecl Mocker.emit
  cases hs : m.src_ <;> simp [hs, Mocker.toHeader]

theorem TraverseTranslationUnitDecl_style (fs : FileSystem) (base : Mocker → Bool × Mocker)
    (hb : ∀ m₁ m₂, StyleRel m₁ m₂ →
      StyleRel (base m₁).2 (base m₂).2 ∧ (base m₁).1 = (base m₂).1)
    (m₁ m₂ : Mocker) (hr : m₁.rest = m₂.rest) (h₁ : m₁.header_ = []) (h₂ : m₂.header_ = []) :
    StyleRel (TraverseTranslationUnitDecl fs base m₁).2
        (TraverseTranslationUnitDecl fs base m₂).2
      ∧ (TraverseTranslationUnitDecl fs base m₁).1
        = (TraverseTranslationUnitDecl fs base m₂).1 := by
  obtain ⟨hflag, hrest⟩ := openOutputStreams_rest fs m₁ m₂ hr
  have hopen : StyleRel (openOutputStreams fs m₁).2 (openOutputStreams fs m₂).2 :=
    ⟨hrest, [], by simp [renderPieces, openOutputStreams_header_nil fs m₁ h₁],
      by simp [renderPieces, openOutputStreams_header_nil fs m₂ h₂]⟩
  rw [TraverseTranslationUnitDecl_eq, TraverseTranslationUnitDecl_eq, hflag]
  by_cases hok : (openOutputStreams fs m₂).1 = true
  · rw [if_pos hok, if_pos hok]
    obtain ⟨_, _, hin, _, hout, hs, hst, hc, hmc⟩ := hopen.fields
    have henter : StyleRel (enterTranslationUnitDecl (openOutputStreams fs m₁).2)
        (enterTranslationUnitDecl (openOutputStreams fs m₂).2) := by
      rw [enterTranslationUnitDecl_emit, enterTranslationUnitDecl_emit, hin, hout, hs, hst,
        hc, hmc]
      exact styleRel_emit _ _ hopen _ _ _ _ _
    obtain ⟨hbase, hbflag⟩ := hb _ _ henter
    refine ⟨?_, hbflag⟩
    dsimp only
    obtain ⟨_, _, _, _, _, _, hst', hc', hmc'⟩ := hbase.fields
    rw [leaveTranslationUnitDecl_emit, leaveTranslationUnitDecl_emit, hin, hst', hc', hmc']
    exact styleRel_emit _ _ hbase _ _ _ _ _
  · rw [if_neg hok, if_neg hok]
    exact ⟨hopen, hflag⟩

/-! ## The configuration is constant -/

theorem VisitCXXMethodDecl_config (m : Mocker) (method : FunctionDecl) :
    (VisitCXXMethodDecl m method).2.config_ = m.config_ := by
  rw [VisitCXXMethodDecl_emit]
  dsimp only
  split_ifs <;> rfl

theorem VisitFunctionDecl_config (m : Mocker) (function : FunctionDecl) :
    (VisitFunctionDecl m function).2.config_ = m.config_ := by
  rw [VisitFunctionDecl_emit]
  dsimp only
  split_ifs <;> rfl

mutual
theorem TraverseDecl_config (m : Mocker) : ∀ D : Decl, (TraverseDecl m D).2.config_ = m.config_
  | .LinkageSpec loc language children => by
    rw [TraverseDecl]
    split_ifs
    · rfl
    · rw [TraverseLinkageSpecDecl_eq]
      dsimp only
      rw [leaveLinkageSpecDecl_emit]
      simp only [Mocker.emit]
      rw [TraverseDeclContextHelper_config _ children, enterLinkageSpecDecl_emit]
      rfl
  | .Namespace loc name children => by
    rw [TraverseDecl]
    split_ifs
    · rfl
    · rw [TraverseNamespaceDecl_eq]
      dsimp only
      rw [leaveNamespaceDecl_emit]
      simp only [Mocker.emit]
      rw [TraverseDeclContextHelper_config _ children, enterNamespaceDecl_emit]
      rfl
  | .CXXRecord loc name hasDefinition children => by
    rw [TraverseDecl]
    split_ifs
    · rfl
    · rw [TraverseCXXRecordDecl_eq]
      split_ifs
      · rfl
      · dsimp only
        rw [leaveCXXRecordDecl_emit]
        simp only [Mocker.emit]
        rw [TraverseDeclContextHelper_config _ children, enterCXXRecordDecl_emit]
        rfl
  | .Function loc function => by
    rw [TraverseDecl]
    split_ifs
    · rfl
    · exact VisitCXXMethodDecl_config m function
    · exact VisitFunctionDecl_config m function
  | .Other loc => by
    rw [TraverseDecl]
    split_ifs
    · rfl
    · rfl
theorem TraverseDeclContextHelper_config (m : Mocker) :
    ∀ ds : DeclList, (TraverseDeclContextHelper m ds).2.config_ = m.config_
  | .nil => by
    rw [TraverseDeclContextHelper]
  | .cons d ds => by
    rw [TraverseDeclContextHelper]
    split_ifs
    · rw [TraverseDeclContextHelper_config _ ds, TraverseDecl_config m d]
    · exact TraverseDecl_config m d
end

theorem openOutputStreams_config (fs : FileSystem) (m : Mocker) :
    (openOutputStreams fs m).2.config_ = m.config_ := by
  unfold openOutputStreams
  simp only [Mocker.request, Mocker.toErrs]
  split_ifs <;> (repeat' split) <;> rfl

theorem TraverseTranslationUnitDecl_config (fs : FileSystem) (base : Mocker → Bool × Mocker)
    (m : Mocker) (hb : ∀ m', (base m').2.config_ = m'.config_) :
    (TraverseTranslationUnitDecl fs base m).2.config_ = m.config_ := by
  rw [TraverseTranslationUnitDecl_eq]
  split_ifs
  · dsimp only
    rw [leaveTranslationUnitDecl_emit]
    simp only [Mocker.emit]
    rw [hb, enterTranslationUnitDecl_emit]
    exact openOutputStreams_config fs m
  · exact openOutputStreams_config fs m

/-- Claim C13: two runs on the same declaration tree, file system and paths whose
configurations differ only in the dialect (legacy or current) return the same
result and write the same source stream, and their headers are the renderings,
each in its own dialect, of one and the same list of pieces: the text pieces are
identical, and each macro piece is the mock-macro line of the same declaration
at the same position. -/
theorem style_changes_only_macro_lines (fs : FileSystem) (config : Config)
    (InFile outputHeaderPath outputSourcePath : Str) (tu : DeclList) :
    (HandleTranslationUnit fs { config with gmockStyle := GmockStyle.Old } InFile
        outputHeaderPath outputSourcePath tu).1
      = (HandleTranslationUnit fs { config with gmockStyle := GmockStyle.New } InFile
          outputHeaderPath outputSourcePath tu).1
      ∧ (HandleTranslationUnit fs { config with gmockStyle := GmockStyle.Old } InFile
          outputHeaderPath outputSourcePath tu).2.src_
        = (HandleTranslationUnit fs { config with gmockStyle := GmockStyle.New } InFile
            outputHeaderPath outputSourcePath tu).2.src_
      ∧ ∃ pieces : List Piece,
          (HandleTranslationUnit fs { config with gmockStyle := GmockStyle.Old } InFile
              outputHeaderPath outputSourcePath tu).2.header_
            = renderPieces GmockStyle.Old pieces
          ∧ (HandleTranslationUnit fs { config with gmockStyle := GmockStyle.New } InFile
              outputHeaderPath outputSourcePath tu).2.header_
            = renderPieces GmockStyle.New pieces := by
  have h := TraverseTranslationUnitDecl_style fs (fun m => TraverseDeclContextHelper m tu)
    (fun m₁ m₂ hm => TraverseDeclContextHelper_style m₁ m₂ hm tu)
    (Mocker.new { config with gmockStyle := GmockStyle.Old } InFile outputHeaderPath
      outputSourcePath)
    (Mocker.new { config with gmockStyle := GmockStyle.New } InFile outputHeaderPath
      outputSourcePath) rfl rfl rfl
  obtain ⟨hrel, hflag⟩ := h
  refine ⟨hflag, hrel.src_eq, ?_⟩
  obtain ⟨_, pieces, hp1, hp2⟩ := hrel
  have hc : ∀ style : GmockStyle,
      (TraverseTranslationUnitDecl fs (fun m => TraverseDeclContextHelper m tu)
        (Mocker.new { config with gmockStyle := style } InFile outputHeaderPath
          outputSourcePath)).2.config_.gmockStyle = style := by
    intro style
    rw [TraverseTranslationUnitDecl_config fs _ _
      (fun m' => TraverseDeclContextHelper_config m' tu)]
    rfl
  rw [hc] at hp1 hp2
  exact ⟨pieces, hp1, hp2⟩

end Genmock
